import Mathlib

/-!
# RabbitMQ instance resource of the HuaweiCloud Terraform provider

A shallow embedding of `huaweicloud/services/dms/resource_huaweicloud_dms_rabbitmq_instance.go`,
of `nextPageURL` from the vendored image service client and of the import ID
function of the APIG group acceptance test, followed by theorems about them.

Conventions of the embedding:

* a Go `error` is a `GoError`; the only thing the code ever asks of an error
  value is whether it is a `golangsdk.ErrDefault404` and what its message is;
* a Go `(value, error)` result is an `Except`, or a dedicated result type when
  the code uses the value next to a non-nil error;
* calls that leave the process (the REST client, the SDK poller, `d.Set`) are
  fields of an environment record `Env`; the handlers are functions of it.
-/

namespace Dms

/-! ## Errors -/

/-- A Go error value: either a `golangsdk.ErrDefault404` or any other error,
with the text its `Error()` method returns. -/
inductive GoError where
  | ErrDefault404 (msg : String)
  | other (msg : String)
deriving DecidableEq, Repr

/-- The `Error()` method. -/
def GoError.Error : GoError → String
  | .ErrDefault404 m => m
  | .other m => m

/-- The type assertion `_, ok := err.(golangsdk.ErrDefault404)`. -/
def GoError.is404 : GoError → Bool
  | .ErrDefault404 _ => true
  | .other _ => false

/-! ## The instance returned by the API -/

/-- The fields of `instances.Instance` that the resource reads. -/
structure Instance where
  InstanceID : String
  Name : String
  Description : String
  Engine : String
  EngineVersion : String
  Specification : String
  TotalStorageSpace : Int
  VPCID : String
  SecurityGroupID : String
  SubnetID : String
  AvailableZones : List String
  ProductID : String
  MaintainBegin : String
  MaintainEnd : String
  EnablePublicIP : Bool
  PublicIPID : String
  SslEnable : Bool
  StorageSpecCode : String
  EnterpriseProjectID : String
  UsedStorageSpace : Int
  ConnectAddress : String
  ManagementConnectAddress : String
  Port : Int
  Status : String
  ResourceSpecCode : String
  UserID : String
  UserName : String
  Type_ : String
  AccessUser : String
deriving DecidableEq, Repr

/-- The result of `instances.Get(client, id).Extract()`: an instance and a nil
error, or a non-nil error next to whatever pointer `Extract` hands back. -/
inductive GetResult where
  | ok (v : Instance)
  | fail (v : Option Instance) (err : GoError)
deriving DecidableEq, Repr

/-! ## The status accessors handed to the poller -/

/-- What a `resource.StateRefreshFunc` returns: `(interface{}, string, error)`. -/
structure RefreshResult where
  entity : Option Instance
  state : String
  err : Option GoError
deriving DecidableEq, Repr

/-- The accessor of the create-wait and the delete-wait. -/
def rabbitmqInstanceStateRefreshFunc (Get : String → GetResult) (instanceID : String) :
    RefreshResult :=
  match Get instanceID with
  | .fail v err =>
    if err.is404 then ⟨v, "DELETED", none⟩
    else ⟨none, "", some err⟩
  | .ok v => ⟨some v, v.Status, none⟩

/-- The accessor of the resize-wait. -/
def rabbitMQResizeStateRefresh (Get : String → GetResult) (instanceID productID : String) :
    RefreshResult :=
  match Get instanceID with
  | .fail v err =>
    if err.is404 then
      ⟨v, "failed", some (.other
        ("unable to resize RabbitMQ instance which has been deleted: " ++ instanceID))⟩
    else ⟨none, "failed", some err⟩
  | .ok v =>
    if v.Status = "RUNNING" ∧ v.ProductID ≠ productID then ⟨some v, "PENDING", none⟩
    else ⟨some v, v.Status, none⟩

/-- The configuration of one wait: `resource.StateChangeConf`, durations in seconds. -/
structure StateChangeConf where
  Pending : List String
  Target : List String
  Refresh : Unit → RefreshResult
  Timeout : Nat
  Delay : Nat
  MinTimeout : Nat
  PollInterval : Nat

/-- The wait that `resourceDmsRabbitmqInstanceCreate` configures. -/
def createStateConf (Get : String → GetResult) (instanceID : String) (timeout : Nat) :
    StateChangeConf where
  Pending := ["CREATING"]
  Target := ["RUNNING"]
  Refresh := fun _ => rabbitmqInstanceStateRefreshFunc Get instanceID
  Timeout := timeout
  Delay := 300
  MinTimeout := 10
  PollInterval := 15

/-- The wait that `resizeRabbitMQInstance` configures. -/
def resizeStateConf (Get : String → GetResult) (instanceID productID : String) (timeout : Nat) :
    StateChangeConf where
  Pending := ["EXTENDING", "PENDING"]
  Target := ["RUNNING"]
  Refresh := fun _ => rabbitMQResizeStateRefresh Get instanceID productID
  Timeout := timeout
  Delay := 180
  MinTimeout := 0
  PollInterval := 15

/-- The wait that `resourceDmsRabbitmqInstanceDelete` configures. -/
def deleteStateConf (Get : String → GetResult) (instanceID : String) (timeout : Nat) :
    StateChangeConf where
  Pending := ["DELETING", "RUNNING", "ERROR"]
  Target := ["DELETED"]
  Refresh := fun _ => rabbitmqInstanceStateRefreshFunc Get instanceID
  Timeout := timeout
  Delay := 90
  MinTimeout := 5
  PollInterval := 15

/-! ## Diagnostics -/

/-- The severity of a `diag.Diagnostic`. -/
inductive Severity where
  | Error
  | Warning
deriving DecidableEq, Repr

/-- One `diag.Diagnostic`. Its text is kept in two parts: `Summary`, the
call-site context of the format string, and `Causes`, the error values that the
format string renders after it. -/
structure Diagnostic where
  Severity : Severity
  Summary : String
  Causes : List GoError
deriving DecidableEq, Repr

/-- The type `diag.Diagnostics`. -/
abbrev Diagnostics := List Diagnostic

/-- The method `Diagnostics.HasError`. -/
def Diagnostics.HasError (ds : Diagnostics) : Bool :=
  ds.any (fun x => decide (x.Severity = Severity.Error))

/-- The call `diag.Errorf(summary + ": %s", causes)`: one diagnostic of severity Error. -/
def diagErrorf (summary : String) (causes : List GoError) : Diagnostics :=
  [⟨.Error, summary, causes⟩]

/-- The call `diag.FromErr(err)`. -/
def diagFromErr (err : GoError) : Diagnostics :=
  [⟨.Error, "", [err]⟩]

/-! ## Resource data -/

/-- One `tags.ResourceTag`. -/
structure ResourceTag where
  Key : String
  Value : String
deriving DecidableEq, Repr

/-- A `map[string]string` of tags, as an association list. -/
abbrev TagMap := List (String × String)

/-- The `schema.ResourceData` of the resource: its ID, one field per attribute of
the schema of `ResourceDmsRabbitmqInstance`, and the three timeouts in seconds.
An attribute that is not set holds the zero value of its type, which is what
`d.Get` returns for it. `availability_zones` is a `schema.TypeSet` of strings,
`available_zones` a `schema.TypeList`. -/
structure ResourceData where
  Id : String
  region : String
  name : String
  description : String
  engine_version : String
  storage_space : Int
  storage_spec_code : String
  access_user : String
  password : String
  vpc_id : String
  security_group_id : String
  network_id : String
  availability_zones : Finset String
  product_id : String
  maintain_begin : String
  maintain_end : String
  ssl_enable : Bool
  public_ip_id : String
  enterprise_project_id : String
  tags : TagMap
  engine : String
  specification : String
  enable_public_ip : Bool
  used_storage_space : Int
  port : Int
  status : String
  resource_spec_code : String
  user_id : String
  user_name : String
  connect_address : String
  management_connect_address : String
  type_ : String
  available_zones : List String
  manegement_connect_address : String
  timeoutCreate : Nat
  timeoutUpdate : Nat
  timeoutDelete : Nat
deriving DecidableEq

/-- The method `d.SetId`. -/
def ResourceData.SetId (d : ResourceData) (id : String) : ResourceData :=
  { d with Id := id }

/-- The method `d.Set(key, value)`: `write` stores the value in the attribute
`key`; `setError key` is the error the SDK answers for that attribute, if any, in
which case nothing is stored. -/
def ResourceData.Set (setError : String → Option GoError) (d : ResourceData) (key : String)
    (write : ResourceData → ResourceData) : ResourceData × Option GoError :=
  match setError key with
  | some err => (d, some err)
  | none => (write d, none)

/-! ## Requests and the product listing -/

/-- The request body `instances.CreateOps`. -/
structure CreateOps where
  Name : String
  Description : String
  Engine : String
  EngineVersion : String
  StorageSpace : Int
  AccessUser : String
  VPCID : String
  SecurityGroupID : String
  SubnetID : String
  AvailableZones : List String
  ProductID : String
  MaintainBegin : String
  MaintainEnd : String
  SslEnable : Bool
  StorageSpecCode : String
  EnterpriseProjectID : String
  EnablePublicIP : Bool
  PublicIpID : String
  Tags : List ResourceTag
  Password : String
deriving DecidableEq, Repr

/-- The fields of `products.ProductInfo` that the resource touches. -/
structure ProductInfo where
  Storage : String
  ProductID : String
  SpecCode : String
  IOs : List String
  AvailableZones : List String
  UnavailableZones : List String
deriving DecidableEq, Repr

/-- One element of `Values[i].Details` in the product listing. -/
structure Detail where
  Storage : String
  ProductID : String
  SpecCode : String
  IOs : List String
  AvailableZones : List String
  UnavailableZones : List String
  ProductInfos : List ProductInfo
deriving DecidableEq, Repr

/-- One element of `Hourly[i].Values` in the product listing. -/
structure Value where
  Name : String
  Details : List Detail
deriving DecidableEq, Repr

/-- One element of `Hourly` in the product listing. -/
structure Parameter where
  Version : String
  Values : List Value
deriving DecidableEq, Repr

/-- The product listing `products.GetResponse`. -/
structure GetResponse where
  Hourly : List Parameter
deriving DecidableEq, Repr

/-- The request body `instances.UpdateOpts`; `Description` and `EnablePublicIP`
are pointers, nil when not set. -/
structure UpdateOpts where
  Name : String
  Description : Option String
  MaintainBegin : String
  MaintainEnd : String
  SecurityGroupID : String
  EnablePublicIP : Option Bool
  PublicIpID : String
  EnterpriseProjectID : String
deriving DecidableEq, Repr

/-- The request body `instances.ResizeInstanceOpts`. -/
structure ResizeInstanceOpts where
  NewSpecCode : String
  NewStorageSpace : Int
deriving DecidableEq, Repr

/-- One availability zone of the region: its ID and its code. -/
structure AvailableZone where
  ID : String
  Code : String
deriving DecidableEq, Repr

/-! ## The environment of a handler -/

/-- Everything a handler reaches outside its own body: the provider
configuration, the REST client, the SDK poller, the error `d.Set` answers, and
the helpers of the repository that are not among the source files. -/
structure Env where
  /-- The result of `cfg.GetRegion(d)`. -/
  GetRegion : ResourceData → String
  /-- The error of `cfg.DmsV2Client(region)`, if any. -/
  DmsV2Client : Option GoError
  /-- The constant `engineRabbitMQ` of the package. -/
  engineRabbitMQ : String
  /-- The call `instances.Get(client, id).Extract()`. -/
  Get : String → GetResult
  /-- The call `instances.Create(client, opts).Extract()`, answering the instance ID. -/
  Create : CreateOps → Except GoError String
  /-- The call `instances.Delete(client, id).ExtractErr()`. -/
  Delete : String → Option GoError
  /-- The error of `stateConf.WaitForStateContext(ctx)`, if any. -/
  WaitForStateContext : StateChangeConf → Option GoError
  /-- The zones of the region, as `availablezones.Get(client)` answers them. -/
  availableZones : Except GoError (List AvailableZone)
  /-- The helper `getAvailableZoneIDByCode(cfg, region, codes)`. -/
  getAvailableZoneIDByCode : Finset String → Except GoError (List String)
  /-- The helper `getProducts(cfg, region, "rabbitmq")`. -/
  getProducts : Except GoError GetResponse
  /-- The call `tags.Get(client, engineRabbitMQ, id).Extract()`. -/
  TagsGet : String → String → Except GoError (List ResourceTag)
  /-- The error `d.Set` answers for an attribute, if any. -/
  setError : String → Option GoError
  /-- The helper `common.GetEnterpriseProjectID(d, cfg)`. -/
  GetEnterpriseProjectID : ResourceData → String
  /-- The helper `utils.ExpandToStringList`. -/
  ExpandToStringList : List String → List String
  /-- The helper `utils.ExpandResourceTags`. -/
  ExpandResourceTags : TagMap → List ResourceTag
  /-- The helper `utils.TagsToMap`. -/
  TagsToMap : List ResourceTag → TagMap
  /-- The method `d.HasChange(key)`. -/
  HasChange : ResourceData → String → Bool
  /-- The error of `instances.Update(client, id, opts)`, if any. -/
  Update : String → UpdateOpts → Option GoError
  /-- The error of `utils.UpdateResourceTags(client, d, engineRabbitMQ, id)`, if any. -/
  UpdateResourceTags : ResourceData → String → String → Option GoError
  /-- The error of `instances.Resize(client, id, opts)`, if any. -/
  Resize : String → ResizeInstanceOpts → Option GoError

/-- What a handler does that is visible outside it, in order: the create options
it logs, the API calls it makes, the waits it starts and the attributes it sets. -/
inductive Effect where
  | LogCreateOpts (opts : CreateOps)
  | ApiCreate (opts : CreateOps)
  | ApiGet (id : String)
  | ApiDelete (id : String)
  | ApiTagsGet (id : String)
  | WaitForState (id : String) (target : List String)
  | Set (key : String)
  | ApiUpdate (id : String) (opts : UpdateOpts)
  | UpdateResourceTags (id : String)
  | ApiResize (id : String) (opts : ResizeInstanceOpts)
deriving DecidableEq, Repr

/-- Whether an effect is the start of a wait. -/
def Effect.isWait : Effect → Bool
  | .WaitForState _ _ => true
  | _ => false

/-- The result of a handler: the resource data it leaves, the diagnostics it
returns and the effects it had. -/
structure Outcome where
  d : ResourceData
  diags : Diagnostics
  trace : List Effect
deriving DecidableEq

/-! ## Helpers -/

/-- Modelled from the spec: `multierror.Append` and `ErrorOrNil` of
hashicorp/go-multierror are not among the source files. Section 7: the errors
are "collected and reported together rather than failing fast on the first
one". A multierror is the list of the collected errors; appending adds the
non-nil ones in order; `ErrorOrNil` is nil exactly for the empty list. -/
def multierrorAppend (mErr : List GoError) (errs : List (Option GoError)) : List GoError :=
  mErr ++ errs.filterMap id

/-- Modelled from the spec: `common.CheckDeletedDiag` is not among the source
files. Section 7: "404 on read/delete is treated as already gone, clearing
local state rather than erroring", and every other API failure surfaces as a
diagnostic "with call-site context strings". -/
def CheckDeletedDiag (d : ResourceData) (err : GoError) (msg : String) :
    ResourceData × Diagnostics :=
  if err.is404 then (d.SetId "", [])
  else (d, diagErrorf msg [err])

/-- Modelled from the spec: `getAvailableZoneCodeByID` is in a file of the
package that is not among the source files. Section 4.2: it converts "the
vendor's internal zone identifiers" to "human-facing zone codes" and is "a
total, order-independent mapping": every ID is looked up in the zones of the
region, on its own; the only failure is that of the zone query. -/
def getAvailableZoneCodeByID (zones : Except GoError (List AvailableZone))
    (azIDs : List String) : List String × Option GoError :=
  match zones with
  | .error err => ([], some err)
  | .ok zs =>
    (azIDs.filterMap (fun id => (zs.find? (fun z => decide (z.ID = id))).map (fun z => z.Code)),
      none)

/-- The digits of `strconv.ParseUint` in base 10, most significant first,
added to `acc`; `none` at the first byte that is not a digit. -/
def parseDigits (acc : Nat) : List Char → Option Nat
  | [] => some acc
  | c :: cs =>
    if '0' ≤ c ∧ c ≤ '9' then parseDigits (acc * 10 + (c.toNat - '0'.toNat)) cs
    else none

/-- The call `strconv.ParseInt(s, 10, bitSize)` of the Go standard library: an
optional sign, then one or more decimal digits, and the value must fit in
`bitSize` bits. The error message leaves out the quoted input. -/
def ParseInt (s : String) (bitSize : Nat) : Except GoError Int :=
  let split : Bool × List Char :=
    match s.toList with
    | '+' :: rest => (false, rest)
    | '-' :: rest => (true, rest)
    | cs => (false, cs)
  if split.2 = [] then .error (.other "strconv.ParseInt: invalid syntax")
  else
    match parseDigits 0 split.2 with
    | none => .error (.other "strconv.ParseInt: invalid syntax")
    | some un =>
      let cutoff := 2 ^ (bitSize - 1)
      if !split.1 ∧ un ≥ cutoff then .error (.other "strconv.ParseInt: value out of range")
      else if split.1 ∧ un > cutoff then .error (.other "strconv.ParseInt: value out of range")
      else .ok (if split.1 then -(un : Int) else (un : Int))

/-- The body of the innermost loop of `getRabbitMQProductDetail` for one detail
of a value named `vName`: the product it returns, if it returns. -/
def matchDetail (vName productID : String) (detail : Detail) : Option ProductInfo :=
  if vName = "single" then
    if detail.ProductID = productID then
      some
        { Storage := detail.Storage
          ProductID := detail.ProductID
          SpecCode := detail.SpecCode
          IOs := detail.IOs
          AvailableZones := detail.AvailableZones
          UnavailableZones := detail.UnavailableZones }
    else none
  else detail.ProductInfos.find? (fun product => decide (product.ProductID = productID))

/-- The function `getRabbitMQProductDetail`, of the product listing answered by
`getProducts` and of the `product_id` and `engine_version` of the resource. -/
def getRabbitMQProductDetail (getProducts : Except GoError GetResponse)
    (productID engineVersion : String) : Except GoError ProductInfo :=
  match getProducts with
  | .error err =>
    .error (.other
      ("error querying product detail, please check product_id, error: " ++ err.Error))
  | .ok productRsp =>
    match productRsp.Hourly.findSome? (fun ps =>
        if ps.Version ≠ engineVersion then none
        else ps.Values.findSome? (fun v => v.Details.findSome? (matchDetail v.Name productID))) with
    | some product => .ok product
    | none => .error (.other ("can not found product detail base on product_id: " ++ productID))

/-! ## The handlers -/

/-- The attribute writes of `resourceDmsRabbitmqInstanceRead`, in the order of
the source: the key of each `d.Set` and what it stores. -/
def readAttributes (region : String) (v : Instance) (asCodes : List String) :
    List (String × (ResourceData → ResourceData)) :=
  [ ("region", fun d => { d with region := region }),
    ("name", fun d => { d with name := v.Name }),
    ("description", fun d => { d with description := v.Description }),
    ("engine", fun d => { d with engine := v.Engine }),
    ("engine_version", fun d => { d with engine_version := v.EngineVersion }),
    ("specification", fun d => { d with specification := v.Specification }),
    ("storage_space", fun d => { d with storage_space := v.TotalStorageSpace }),
    ("vpc_id", fun d => { d with vpc_id := v.VPCID }),
    ("security_group_id", fun d => { d with security_group_id := v.SecurityGroupID }),
    ("network_id", fun d => { d with network_id := v.SubnetID }),
    ("available_zones", fun d => { d with available_zones := v.AvailableZones }),
    ("availability_zones", fun d => { d with availability_zones := asCodes.toFinset }),
    ("product_id", fun d => { d with product_id := v.ProductID }),
    ("maintain_begin", fun d => { d with maintain_begin := v.MaintainBegin }),
    ("maintain_end", fun d => { d with maintain_end := v.MaintainEnd }),
    ("enable_public_ip", fun d => { d with enable_public_ip := v.EnablePublicIP }),
    ("public_ip_id", fun d => { d with public_ip_id := v.PublicIPID }),
    ("ssl_enable", fun d => { d with ssl_enable := v.SslEnable }),
    ("storage_spec_code", fun d => { d with storage_spec_code := v.StorageSpecCode }),
    ("enterprise_project_id", fun d => { d with enterprise_project_id := v.EnterpriseProjectID }),
    ("used_storage_space", fun d => { d with used_storage_space := v.UsedStorageSpace }),
    ("connect_address", fun d => { d with connect_address := v.ConnectAddress }),
    ("management_connect_address",
      fun d => { d with management_connect_address := v.ManagementConnectAddress }),
    ("manegement_connect_address",
      fun d => { d with manegement_connect_address := v.ManagementConnectAddress }),
    ("port", fun d => { d with port := v.Port }),
    ("status", fun d => { d with status := v.Status }),
    ("resource_spec_code", fun d => { d with resource_spec_code := v.ResourceSpecCode }),
    ("user_id", fun d => { d with user_id := v.UserID }),
    ("user_name", fun d => { d with user_name := v.UserName }),
    ("type", fun d => { d with type_ := v.Type_ }),
    ("access_user", fun d => { d with access_user := v.AccessUser }) ]

/-- Evaluates a list of `d.Set` calls in order, as Go evaluates the arguments of
one `multierror.Append` call: every call is made, whatever the earlier ones
answered; the result is the resource data after all of them, the error of each,
nil or not, and the calls made. -/
def setAttributes (setError : String → Option GoError) (d : ResourceData) :
    List (String × (ResourceData → ResourceData)) →
      ResourceData × List (Option GoError) × List Effect
  | [] => (d, [], [])
  | (key, write) :: rest =>
    let r := d.Set setError key write
    let rs := setAttributes setError r.1 rest
    (rs.1, r.2 :: rs.2.1, Effect.Set key :: rs.2.2)

/-- The part of `resourceDmsRabbitmqInstanceRead` that fetches the tags and
stores them: the resource data, the multierror and the effects after it. -/
def readTags (env : Env) (d : ResourceData) (mErr : List GoError) :
    ResourceData × List GoError × List Effect :=
  match env.TagsGet env.engineRabbitMQ d.Id with
  | .ok resourceTags =>
    let tagMap := env.TagsToMap resourceTags
    let r := d.Set env.setError "tags" (fun x => { x with tags := tagMap })
    match r.2 with
    | some err =>
      (r.1, multierrorAppend mErr [some (.other
        ("error saving tags to state for DMS RabbitMQ instance (" ++ r.1.Id ++ "): " ++
          err.Error))], [.ApiTagsGet d.Id, .Set "tags"])
    | none => (r.1, mErr, [.ApiTagsGet d.Id, .Set "tags"])
  | .error err =>
    (d, multierrorAppend mErr [some (.other
      ("error fetching tags of DMS RabbitMQ instance (" ++ d.Id ++ "): " ++ err.Error))],
      [.ApiTagsGet d.Id])

/-- The errors the tag step of `resourceDmsRabbitmqInstanceRead` adds to the
multierror for the instance `id`: the wrapped error of `d.Set("tags", ...)` when
the tags were fetched, the wrapped error of the fetch otherwise. -/
def tagErrors (env : Env) (id : String) : List GoError :=
  match env.TagsGet env.engineRabbitMQ id with
  | .ok _ =>
    (env.setError "tags").toList.map (fun err => GoError.other
      ("error saving tags to state for DMS RabbitMQ instance (" ++ id ++ "): " ++ err.Error))
  | .error err =>
    [.other ("error fetching tags of DMS RabbitMQ instance (" ++ id ++ "): " ++ err.Error)]

/-- The part of `resourceDmsRabbitmqInstanceRead` after `Get` has answered: `v` is
the instance it answered. -/
def readInstance (env : Env) (d : ResourceData) (v : Instance) : Outcome :=
  let region := env.GetRegion d
  let azIDs := v.AvailableZones
  let zc := getAvailableZoneCodeByID env.availableZones azIDs
  let mErr := multierrorAppend [] [zc.2]
  let d1 := d.SetId v.InstanceID
  let sets := readAttributes region v zc.1
  let r := setAttributes env.setError d1 sets
  let mErr := multierrorAppend mErr r.2.1
  let t := readTags env r.1 mErr
  let trace := r.2.2 ++ t.2.2
  if t.2.1 ≠ [] then
    ⟨t.1, diagErrorf "failed to set attributes for DMS RabbitMQ instance" t.2.1, trace⟩
  else ⟨t.1, [], trace⟩

/-- The handler `resourceDmsRabbitmqInstanceRead`. -/
def resourceDmsRabbitmqInstanceRead (env : Env) (d : ResourceData) : Outcome :=
  match env.DmsV2Client with
  | some err => ⟨d, diagErrorf "error initializing DMS RabbitMQ(v2) client" [err], []⟩
  | none =>
    match env.Get d.Id with
    | .fail _ err =>
      let r := CheckDeletedDiag d err "DMS RabbitMQ instance"
      ⟨r.1, r.2, [.ApiGet d.Id]⟩
    | .ok v =>
      let r := readInstance env d v
      ⟨r.d, r.diags, .ApiGet d.Id :: r.trace⟩

/-- The storage space `resourceDmsRabbitmqInstanceCreate` sends: the configured
`storage_space`, or when that is 0 the `Storage` of the selected product. -/
def createStorageSpace (env : Env) (d : ResourceData) : Except Diagnostics Int :=
  let storageSpace := d.storage_space
  if storageSpace = 0 then
    match getRabbitMQProductDetail env.getProducts d.product_id d.engine_version with
    | .error err => .error (diagErrorf "failed to query DMS RabbitMQ product details" [err])
    | .ok product =>
      match ParseInt product.Storage 32 with
      | .error err =>
        .error (diagErrorf
          ("failed to create RabbitMQ instance, error parsing storage_space to int " ++
            product.Storage) [err])
      | .ok defaultStorageSpace => .ok defaultStorageSpace
  else .ok storageSpace

/-- The create options as `resourceDmsRabbitmqInstanceCreate` logs them: all of
the request but the password. -/
def buildCreateOpts (env : Env) (d : ResourceData) (availableZones : List String)
    (storageSpace : Int) : CreateOps :=
  let createOpts : CreateOps :=
    { Name := d.name
      Description := d.description
      Engine := env.engineRabbitMQ
      EngineVersion := d.engine_version
      StorageSpace := storageSpace
      AccessUser := d.access_user
      VPCID := d.vpc_id
      SecurityGroupID := d.security_group_id
      SubnetID := d.network_id
      AvailableZones := availableZones
      ProductID := d.product_id
      MaintainBegin := d.maintain_begin
      MaintainEnd := d.maintain_end
      SslEnable := d.ssl_enable
      StorageSpecCode := d.storage_spec_code
      EnterpriseProjectID := env.GetEnterpriseProjectID d
      EnablePublicIP := false
      PublicIpID := ""
      Tags := []
      Password := "" }
  let createOpts :=
    if d.public_ip_id ≠ "" then
      { createOpts with EnablePublicIP := true, PublicIpID := d.public_ip_id }
    else createOpts
  if d.tags.length > 0 then { createOpts with Tags := env.ExpandResourceTags d.tags }
  else createOpts

/-- The handler `resourceDmsRabbitmqInstanceCreate`. -/
def resourceDmsRabbitmqInstanceCreate (env : Env) (d : ResourceData) : Outcome :=
  match env.DmsV2Client with
  | some err => ⟨d, diagErrorf "error initializing DMS RabbitMQ(v2) client" [err], []⟩
  | none =>
    let zones : Except GoError (List String) :=
      if d.available_zones ≠ [] then .ok (env.ExpandToStringList d.available_zones)
      else env.getAvailableZoneIDByCode d.availability_zones
    match zones with
    | .error err => ⟨d, diagFromErr err, []⟩
    | .ok availableZones =>
      match createStorageSpace env d with
      | .error diags => ⟨d, diags, []⟩
      | .ok storageSpace =>
        let logged := buildCreateOpts env d availableZones storageSpace
        let createOpts := { logged with Password := d.password }
        let sent := [Effect.LogCreateOpts logged, Effect.ApiCreate createOpts]
        match env.Create createOpts with
        | .error err => ⟨d, diagErrorf "error creating DMS RabbitMQ instance" [err], sent⟩
        | .ok instanceID =>
          let wait := [Effect.WaitForState instanceID ["RUNNING"]]
          match env.WaitForStateContext (createStateConf env.Get instanceID d.timeoutCreate) with
          | some err =>
            ⟨d, diagErrorf
              ("error waiting for RabbitMQ instance (" ++ instanceID ++ ") to be ready") [err],
              sent ++ wait⟩
          | none =>
            let r := resourceDmsRabbitmqInstanceRead env (d.SetId instanceID)
            ⟨r.d, r.diags, sent ++ wait ++ r.trace⟩

/-- The handler `resourceDmsRabbitmqInstanceDelete`. -/
def resourceDmsRabbitmqInstanceDelete (env : Env) (d : ResourceData) : Outcome :=
  match env.DmsV2Client with
  | some err => ⟨d, diagErrorf "error initializing DMS RabbitMQ(v2) client" [err], []⟩
  | none =>
    match env.Delete d.Id with
    | some err =>
      let r := CheckDeletedDiag d err "failed to delete DMS RabbitMQ instance"
      ⟨r.1, r.2, [.ApiDelete d.Id]⟩
    | none =>
      let trace := [Effect.ApiDelete d.Id, Effect.WaitForState d.Id ["DELETED"]]
      match env.WaitForStateContext (deleteStateConf env.Get d.Id d.timeoutDelete) with
      | some err =>
        ⟨d, diagErrorf
          ("error waiting for DMS RabbitMQ instance (" ++ d.Id ++ ") to be deleted") [err],
          trace⟩
      | none => ⟨d.SetId "", [], trace⟩

/-! ## Update -/

/-- The call `strconv.Atoi(s)` of the Go standard library where `int` has 64
bits: `ParseInt(s, 10, 0)`. The error message is that of `ParseInt`. -/
def Atoi (s : String) : Except GoError Int :=
  ParseInt s 64

/-- The function `resizeRabbitMQInstance`: the error it returns, if any, and its
effects. -/
def resizeRabbitMQInstance (env : Env) (d : ResourceData) : Option GoError × List Effect :=
  match env.DmsV2Client with
  | some err => (some (.other ("error initializing DMS(v2) client: " ++ err.Error)), [])
  | none =>
    match getRabbitMQProductDetail env.getProducts d.product_id d.engine_version with
    | .error err =>
      (some (.other
        ("failed to resize RabbitMQ instance, query product details error: " ++ err.Error)), [])
    | .ok product =>
      match Atoi product.Storage with
      | .error err =>
        (some (.other
          ("failed to resize RabbitMQ instance, error parsing storage_space to int " ++
            product.Storage ++ ": " ++ err.Error)), [])
      | .ok storage =>
        let resizeOpts : ResizeInstanceOpts :=
          { NewSpecCode := product.SpecCode, NewStorageSpace := storage }
        match env.Resize d.Id resizeOpts with
        | some err =>
          (some (.other ("resize RabbitMQ instance failed: " ++ err.Error)),
            [.ApiResize d.Id resizeOpts])
        | none =>
          match env.WaitForStateContext
              (resizeStateConf env.Get d.Id product.ProductID d.timeoutUpdate) with
          | some err =>
            (some (.other
              ("error waiting for RabbitMQ instance (" ++ d.Id ++ ") to resize: " ++ err.Error)),
              [.ApiResize d.Id resizeOpts, .WaitForState d.Id ["RUNNING"]])
          | none => (none, [.ApiResize d.Id resizeOpts, .WaitForState d.Id ["RUNNING"]])

/-- The keys of the first `d.HasChanges` call of `resourceDmsRabbitmqInstanceUpdate`. -/
def basicKeys : List String :=
  ["name", "description", "maintain_begin", "maintain_end", "security_group_id",
    "public_ip_id", "enterprise_project_id"]

/-- The method `d.HasChanges(keys...)`: whether one of the keys has changed. -/
def HasChanges (env : Env) (d : ResourceData) (keys : List String) : Bool :=
  keys.any (fun key => env.HasChange d key)

/-- The update options `resourceDmsRabbitmqInstanceUpdate` builds. -/
def buildUpdateOpts (env : Env) (d : ResourceData) : UpdateOpts :=
  let updateOpts : UpdateOpts :=
    { Name := ""
      Description := some d.description
      MaintainBegin := d.maintain_begin
      MaintainEnd := d.maintain_end
      SecurityGroupID := d.security_group_id
      EnablePublicIP := none
      PublicIpID := ""
      EnterpriseProjectID := d.enterprise_project_id }
  let updateOpts :=
    if env.HasChange d "name" then { updateOpts with Name := d.name } else updateOpts
  if env.HasChange d "public_ip_id" then
    if d.public_ip_id ≠ "" then
      { updateOpts with EnablePublicIP := some true, PublicIpID := d.public_ip_id }
    else { updateOpts with EnablePublicIP := some false }
  else updateOpts

/-- The handler `resourceDmsRabbitmqInstanceUpdate`. -/
def resourceDmsRabbitmqInstanceUpdate (env : Env) (d : ResourceData) : Outcome :=
  match env.DmsV2Client with
  | some err => ⟨d, diagErrorf "error initializing DMS RabbitMQ(v2) client" [err], []⟩
  | none =>
    let mErr : List GoError := []
    let basic : List GoError × List Effect :=
      if HasChanges env d basicKeys then
        let updateOpts := buildUpdateOpts env d
        match env.Update d.Id updateOpts with
        | some err =>
          (multierrorAppend mErr
            [some (.other ("error updating DMS RabbitMQ Instance: " ++ err.Error))],
            [.ApiUpdate d.Id updateOpts])
        | none => (mErr, [.ApiUpdate d.Id updateOpts])
      else (mErr, [])
    let tags : List GoError × List Effect :=
      if env.HasChange d "tags" then
        match env.UpdateResourceTags d env.engineRabbitMQ d.Id with
        | some tagErr =>
          (multierrorAppend basic.1
            [some (.other ("error updating tags of DMS RabbitMQ instance: " ++ d.Id ++
              ", err: " ++ tagErr.Error))],
            basic.2 ++ [.UpdateResourceTags d.Id])
        | none => (basic.1, basic.2 ++ [.UpdateResourceTags d.Id])
      else basic
    let resize : List GoError × List Effect :=
      if env.HasChange d "product_id" then
        let r := resizeRabbitMQInstance env d
        match r.1 with
        | some err => (multierrorAppend tags.1 [some err], tags.2 ++ r.2)
        | none => (tags.1, tags.2 ++ r.2)
      else tags
    if resize.1 ≠ [] then
      ⟨d, diagErrorf "error while updating DMS RabbitMQ instances" resize.1, resize.2⟩
    else
      let r := resourceDmsRabbitmqInstanceRead env d
      ⟨r.d, r.diags, resize.2 ++ r.trace⟩

/-! ## The products of a listing, in the words of the specification -/

/-- The product that a detail under a value named "single" stands for. -/
def detailProduct (detail : Detail) : ProductInfo where
  Storage := detail.Storage
  ProductID := detail.ProductID
  SpecCode := detail.SpecCode
  IOs := detail.IOs
  AvailableZones := detail.AvailableZones
  UnavailableZones := detail.UnavailableZones

/-- The products a listing offers for an engine version, in listing order: of
every hourly entry with that version, of every value, of every detail, the
detail itself under a value named "single" and the elements of its
`ProductInfos` under any other value. This is the reading of the listing that
the lookup is compared with; the lookup itself is `getRabbitMQProductDetail`. -/
def listedProducts (productRsp : GetResponse) (engineVersion : String) : List ProductInfo :=
  productRsp.Hourly.flatMap (fun ps =>
    if ps.Version = engineVersion then
      ps.Values.flatMap (fun v =>
        v.Details.flatMap (fun detail =>
          if v.Name = "single" then [detailProduct detail] else detail.ProductInfos))
    else [])

/-! ## Sample data -/

/-- A running instance, used to evaluate the definitions on concrete inputs. -/
def sampleInstance : Instance where
  InstanceID := "i-1"
  Name := "rabbit"
  Description := "demo"
  Engine := "rabbitmq"
  EngineVersion := "3.7.17"
  Specification := "2vCPUs 4GB"
  TotalStorageSpace := 200
  VPCID := "vpc-1"
  SecurityGroupID := "sg-1"
  SubnetID := "net-1"
  AvailableZones := ["az-id-1", "az-id-2"]
  ProductID := "p-old"
  MaintainBegin := "02:00:00"
  MaintainEnd := "06:00:00"
  EnablePublicIP := false
  PublicIPID := ""
  SslEnable := false
  StorageSpecCode := "dms.physical.storage.high"
  EnterpriseProjectID := "0"
  UsedStorageSpace := 3
  ConnectAddress := "192.168.0.10"
  ManagementConnectAddress := "https://192.168.0.10:15672"
  Port := 5672
  Status := "RUNNING"
  ResourceSpecCode := "dms.instance.rabbitmq.single.c3.2u4g"
  UserID := "u-1"
  UserName := "user"
  Type_ := "single"
  AccessUser := "admin"

/-- A `Get` that answers every ID with a 404. -/
def getNotFound : String → GetResult :=
  fun _ => .fail none (.ErrDefault404 "Resource not found")

/-- A `Get` that answers every ID with a server error. -/
def getServerError : String → GetResult :=
  fun _ => .fail none (.other "Internal Server Error")

/-- A `Get` that answers every ID with `sampleInstance`. -/
def getSample : String → GetResult :=
  fun _ => .ok sampleInstance

/-- The zones of the sample region. -/
def sampleZones : List AvailableZone :=
  [⟨"az-id-1", "cn-north-4a"⟩, ⟨"az-id-2", "cn-north-4b"⟩]

/-- A product listing with one cluster product and one single-node product. -/
def sampleProducts : GetResponse where
  Hourly :=
    [ { Version := "3.7.17"
        Values :=
          [ { Name := "cluster"
              Details :=
                [ { Storage := "", ProductID := "", SpecCode := "", IOs := []
                    AvailableZones := [], UnavailableZones := []
                    ProductInfos :=
                      [ { Storage := "200", ProductID := "p-old", SpecCode := "c3.2u4g.cluster"
                          IOs := ["high"], AvailableZones := ["az-id-1"]
                          UnavailableZones := [] } ] } ] },
            { Name := "single"
              Details :=
                [ { Storage := "100", ProductID := "p-single", SpecCode := "c3.2u4g.single"
                    IOs := ["high"], AvailableZones := ["az-id-1"], UnavailableZones := []
                    ProductInfos := [] } ] } ] } ]

/-- A configuration that sets every settable attribute. -/
def sampleData : ResourceData where
  Id := ""
  region := "cn-north-4"
  name := "rabbit"
  description := "demo"
  engine_version := "3.7.17"
  storage_space := 200
  storage_spec_code := "dms.physical.storage.high"
  access_user := "admin"
  password := "Secret_123"
  vpc_id := "vpc-1"
  security_group_id := "sg-1"
  network_id := "net-1"
  availability_zones := ["cn-north-4a", "cn-north-4b"].toFinset
  product_id := "p-old"
  maintain_begin := "02:00:00"
  maintain_end := "06:00:00"
  ssl_enable := false
  public_ip_id := ""
  enterprise_project_id := "0"
  tags := []
  engine := ""
  specification := ""
  enable_public_ip := false
  used_storage_space := 0
  port := 0
  status := ""
  resource_spec_code := ""
  user_id := ""
  user_name := ""
  connect_address := ""
  management_connect_address := ""
  type_ := ""
  available_zones := []
  manegement_connect_address := ""
  timeoutCreate := 3000
  timeoutUpdate := 3000
  timeoutDelete := 900

/-- An environment in which every call succeeds and `Get` answers `sampleInstance`. -/
def sampleEnv : Env where
  GetRegion := fun d => d.region
  DmsV2Client := none
  engineRabbitMQ := "rabbitmq"
  Get := getSample
  Create := fun _ => .ok "i-1"
  Delete := fun _ => none
  WaitForStateContext := fun _ => none
  availableZones := .ok sampleZones
  getAvailableZoneIDByCode := fun _ => .ok ["az-id-1", "az-id-2"]
  getProducts := .ok sampleProducts
  TagsGet := fun _ _ => .ok []
  setError := fun _ => none
  GetEnterpriseProjectID := fun d => d.enterprise_project_id
  ExpandToStringList := fun l => l
  ExpandResourceTags := fun m => m.map (fun kv => ⟨kv.1, kv.2⟩)
  TagsToMap := fun ts => ts.map (fun t => (t.Key, t.Value))
  HasChange := fun _ _ => false
  Update := fun _ _ => none
  UpdateResourceTags := fun _ _ _ => none
  Resize := fun _ _ => none

/-- The sample environment with an instance that is already gone: the delete
call answers 404. -/
def goneEnv : Env :=
  { sampleEnv with
    Delete := fun _ => some (.ErrDefault404 "Resource not found")
    Get := getNotFound }

/-- The sample environment with three failures at once: the zone query fails and
`d.Set` fails for `name` and for `port`. -/
def failingEnv : Env :=
  { sampleEnv with
    availableZones := .error (.other "error querying available Zones")
    setError := fun key =>
      if key = "name" then some (.other "name: bad value")
      else if key = "port" then some (.other "port: bad value")
      else none }

/-- The sample instance with its zones in the other order. -/
def swappedInstance : Instance :=
  { sampleInstance with AvailableZones := ["az-id-2", "az-id-1"] }

/-- A `Get` that answers every ID with `swappedInstance`. -/
def getSwapped : String → GetResult :=
  fun _ => .ok swappedInstance

/-- The instance `v` holds the values that the create request `opts` sent, for
every attribute the configuration can set. -/
def Echoes (v : Instance) (opts : CreateOps) : Prop :=
  v.Name = opts.Name ∧ v.Description = opts.Description ∧
  v.EngineVersion = opts.EngineVersion ∧ v.TotalStorageSpace = opts.StorageSpace ∧
  v.StorageSpecCode = opts.StorageSpecCode ∧ v.AccessUser = opts.AccessUser ∧
  v.VPCID = opts.VPCID ∧ v.SecurityGroupID = opts.SecurityGroupID ∧
  v.SubnetID = opts.SubnetID ∧ v.ProductID = opts.ProductID ∧
  v.MaintainBegin = opts.MaintainBegin ∧ v.MaintainEnd = opts.MaintainEnd ∧
  v.SslEnable = opts.SslEnable ∧ v.PublicIPID = opts.PublicIpID ∧
  v.EnterpriseProjectID = opts.EnterpriseProjectID

instance (v : Instance) (opts : CreateOps) : Decidable (Echoes v opts) := by
  unfold Echoes
  infer_instance

/-- An API that holds the single instance `v`: it accepts the create requests
that `v` echoes, answers the ID of `v` to them, and `Get` answers `v`. -/
def echoEnv (v : Instance) : Env :=
  { sampleEnv with
    Create := fun opts =>
      if Echoes v opts then .ok v.InstanceID else .error (.other "Bad Request")
    Get := fun _ => .ok v }

/-- A configuration whose `storage_space` is 0, which is also what `d.Get`
answers when the attribute is left out, and that selects the single-node
product, whose storage is "100". -/
def unsetStorageData : ResourceData :=
  { sampleData with storage_space := 0, product_id := "p-single" }

/-- The instance the API creates for `unsetStorageData`. -/
def unsetStorageInstance : Instance :=
  { sampleInstance with TotalStorageSpace := 100, ProductID := "p-single" }

/-- The create options that a handler wrote to the log, in order. -/
def loggedCreateOpts (trace : List Effect) : List CreateOps :=
  trace.filterMap (fun e =>
    match e with
    | .LogCreateOpts opts => some opts
    | _ => none)

/-- A configuration with a `storage_space` of 0 and a product that the sample
listing does not hold. -/
def unknownProductData : ResourceData :=
  { sampleData with storage_space := 0, product_id := "p-none" }

/-- The errors of the steps of `resourceDmsRabbitmqInstanceUpdate` that apply to
`d`, each step taken on its own, in the order of the steps: the basic update
when one of `basicKeys` changed, the tag update when `tags` changed, the resize
when `product_id` changed. -/
def updateStepErrors (env : Env) (d : ResourceData) : List GoError :=
  (if HasChanges env d basicKeys then
      (env.Update d.Id (buildUpdateOpts env d)).toList.map (fun err =>
        GoError.other ("error updating DMS RabbitMQ Instance: " ++ err.Error))
    else []) ++
  (if env.HasChange d "tags" then
      (env.UpdateResourceTags d env.engineRabbitMQ d.Id).toList.map (fun tagErr =>
        GoError.other ("error updating tags of DMS RabbitMQ instance: " ++ d.Id ++
          ", err: " ++ tagErr.Error))
    else []) ++
  (if env.HasChange d "product_id" then (resizeRabbitMQInstance env d).1.toList else [])

/-- The effects of the steps of `resourceDmsRabbitmqInstanceUpdate` that apply
to `d`, each step taken on its own, in the order of the steps. -/
def updateStepEffects (env : Env) (d : ResourceData) : List Effect :=
  (if HasChanges env d basicKeys then [Effect.ApiUpdate d.Id (buildUpdateOpts env d)] else []) ++
  (if env.HasChange d "tags" then [Effect.UpdateResourceTags d.Id] else []) ++
  (if env.HasChange d "product_id" then (resizeRabbitMQInstance env d).2 else [])

/-- The failing environment, for a configuration whose `name` changed: the update
call succeeds, the Read after it does not. -/
def renameEnv : Env :=
  { failingEnv with HasChange := fun _ key => decide (key = "name") }

/-- The sample environment without a client, for a configuration in which
everything changed. -/
def noClientEnv : Env :=
  { sampleEnv with
    DmsV2Client := some (.other "no credentials")
    HasChange := fun _ _ => true }

/-- The sample environment, for a configuration in which everything changed: the
update call fails, the tag update and the resize succeed. -/
def rejectEnv : Env :=
  { sampleEnv with
    HasChange := fun _ _ => true
    Update := fun _ _ => some (.other "Bad Request") }

end Dms

/-! # The import ID function of the APIG group acceptance test -/

namespace Apig

/-- The fields of `terraform.InstanceState` the function reads; `Attributes` is
a `map[string]string`. -/
structure InstanceState where
  ID : String
  Attributes : String → Option String

/-- The fields of `terraform.ResourceState` the function reads. A state that
the SDK has initialised has a primary instance for every resource. -/
structure ResourceState where
  Primary : InstanceState

/-- A `terraform.State`, as far as the function reads it: the `Resources` map of
its root module, which a state that the SDK has initialised always has. -/
structure State where
  Resources : String → Option ResourceState

/-- Indexing a Go `map[string]string`: the zero value for a missing key. -/
def index (m : String → Option String) (key : String) : String :=
  (m key).getD ""

/-- The two errors `testAccGroupImportStateFunc` builds with `fmt.Errorf`, with
the values it formats into them. -/
inductive ImportError where
  | resourceNotFound (rName : String)
  | missingAttributes (instanceID id : String)
deriving DecidableEq, Repr

/-- The function that `testAccGroupImportStateFunc` returns. -/
def testAccGroupImportStateFunc (s : State) : String × Option ImportError :=
  let rName := "huaweicloud_apig_group.test"
  match s.Resources rName with
  | none => ("", some (.resourceNotFound rName))
  | some rs =>
    if index rs.Primary.Attributes "instance_id" = "" ∨ rs.Primary.ID = "" then
      ("", some (.missingAttributes (index rs.Primary.Attributes "instance_id") rs.Primary.ID))
    else (index rs.Primary.Attributes "instance_id" ++ "/" ++ rs.Primary.ID, none)

/-- A state that holds the group `g-1` of the instance `inst-1`. -/
def sampleState : State where
  Resources := fun name =>
    if name = "huaweicloud_apig_group.test" then
      some ⟨⟨"g-1", fun key => if key = "instance_id" then some "inst-1" else none⟩⟩
    else none

end Apig

/-! # The next-page URL of the image service client -/

namespace Images

open Dms (GoError)

/-! ## The package `net/url` of the Go standard library

A Go string is a sequence of bytes. It is modelled by the `String` whose
characters are those bytes, so that ASCII text is modelled by itself. The
functions below are those of `net/url` (Go 1.19 and 1.20) that `url.Parse` and
`(*URL).String` are made of, with their Go names; the package belongs to the Go
distribution and is not among the source files of the repository, so they follow
the file `url.go` of that package. Error messages quote a string between double
quotes and do not escape what is inside. -/

/-- The type `url.Userinfo`. -/
structure Userinfo where
  username : String
  password : String
  passwordSet : Bool
deriving DecidableEq, Repr

/-- The type `url.URL`; `User` is a pointer, nil when there is no user
information. -/
structure URL where
  Scheme : String
  Opaque : String
  User : Option Userinfo
  Host : String
  Path : String
  RawPath : String
  OmitHost : Bool
  ForceQuery : Bool
  RawQuery : String
  Fragment : String
  RawFragment : String
deriving DecidableEq, Repr

/-- The value `new(URL)`: every field has its zero value. -/
def emptyURL : URL where
  Scheme := ""
  Opaque := ""
  User := none
  Host := ""
  Path := ""
  RawPath := ""
  OmitHost := false
  ForceQuery := false
  RawQuery := ""
  Fragment := ""
  RawFragment := ""

/-- The type `encoding`: the part of a URL that is escaped or unescaped. -/
inductive encoding where
  | encodePath
  | encodePathSegment
  | encodeHost
  | encodeZone
  | encodeUserPassword
  | encodeQueryComponent
  | encodeFragment
deriving DecidableEq, Repr

/-- A string between double quotes, as the verb `%q` prints it when nothing
inside needs an escape. -/
def quote (s : List Char) : String :=
  "\"" ++ String.mk s ++ "\""

/-- The function `ishex`. -/
def ishex (c : Char) : Bool :=
  decide (('0' ≤ c ∧ c ≤ '9') ∨ ('a' ≤ c ∧ c ≤ 'f') ∨ ('A' ≤ c ∧ c ≤ 'F'))

/-- The function `unhex`. -/
def unhex (c : Char) : Nat :=
  if '0' ≤ c ∧ c ≤ '9' then c.toNat - '0'.toNat
  else if 'a' ≤ c ∧ c ≤ 'f' then c.toNat - 'a'.toNat + 10
  else if 'A' ≤ c ∧ c ≤ 'F' then c.toNat - 'A'.toNat + 10
  else 0

/-- The function `shouldEscape`: whether the byte `c` is escaped in `mode`. -/
def shouldEscape (c : Char) (mode : encoding) : Bool :=
  if ('a' ≤ c ∧ c ≤ 'z') ∨ ('A' ≤ c ∧ c ≤ 'Z') ∨ ('0' ≤ c ∧ c ≤ '9') then false
  else if (mode = .encodeHost ∨ mode = .encodeZone) ∧
      c ∈ ['!', '$', '&', Char.ofNat 39, '(', ')', '*', '+', ',', ';', '=', ':', '[', ']',
        '<', '>', '"'] then false
  else if c ∈ ['-', '_', '.', '~'] then false
  else if c ∈ ['$', '&', '+', ',', '/', ':', ';', '=', '?', '@'] ∧
      mode = .encodePath then decide (c = '?')
  else if c ∈ ['$', '&', '+', ',', '/', ':', ';', '=', '?', '@'] ∧
      mode = .encodePathSegment then decide (c = '/' ∨ c = ';' ∨ c = ',' ∨ c = '?')
  else if c ∈ ['$', '&', '+', ',', '/', ':', ';', '=', '?', '@'] ∧
      mode = .encodeUserPassword then decide (c = '@' ∨ c = '/' ∨ c = '?' ∨ c = ':')
  else if c ∈ ['$', '&', '+', ',', '/', ':', ';', '=', '?', '@'] ∧
      mode = .encodeQueryComponent then true
  else if c ∈ ['$', '&', '+', ',', '/', ':', ';', '=', '?', '@'] ∧
      mode = .encodeFragment then false
  else if mode = .encodeFragment ∧ c ∈ ['!', '(', ')', '*'] then false
  else true

/-- The function `unescape`: the first malformed escape or, in a host, the first
byte that a host cannot hold is an error; otherwise every `%XX` becomes the byte
`XX`, and in a query component every `+` a space. -/
def unescape : List Char → encoding → Except GoError (List Char)
  | [], _ => .ok []
  | c :: rest, mode =>
    if c = '%' then
      match rest with
      | a :: b :: rest =>
        if ¬ (ishex a ∧ ishex b) then
          .error (.other ("invalid URL escape " ++ quote ['%', a, b]))
        else if mode = .encodeHost ∧ unhex a < 8 ∧ [a, b] ≠ ['2', '5'] then
          .error (.other ("invalid URL escape " ++ quote ['%', a, b]))
        else if mode = .encodeZone ∧ [a, b] ≠ ['2', '5'] ∧
            Char.ofNat (unhex a * 16 + unhex b) ≠ ' ' ∧
            shouldEscape (Char.ofNat (unhex a * 16 + unhex b)) .encodeHost then
          .error (.other ("invalid URL escape " ++ quote ['%', a, b]))
        else
          match unescape rest mode with
          | .error err => .error err
          | .ok t => .ok (Char.ofNat (unhex a * 16 + unhex b) :: t)
      | short => .error (.other ("invalid URL escape " ++ quote ('%' :: short)))
    else if c ≠ '+' ∧ (mode = .encodeHost ∨ mode = .encodeZone) ∧ c.toNat < 128 ∧
        shouldEscape c .encodeHost then
      .error (.other ("invalid character " ++ quote [c] ++ " in host name"))
    else
      match unescape rest mode with
      | .error err => .error err
      | .ok t => .ok ((if c = '+' ∧ mode = .encodeQueryComponent then ' ' else c) :: t)

/-- The digit of `upperhex` for a value below 16. -/
def upperhex (n : Nat) : Char :=
  if n < 10 then Char.ofNat ('0'.toNat + n) else Char.ofNat ('A'.toNat + (n - 10))

/-- The function `escape`: every byte that `shouldEscape` names becomes `%XX`,
and in a query component a space becomes `+`. -/
def escape (s : List Char) (mode : encoding) : List Char :=
  s.flatMap (fun c =>
    if shouldEscape c mode then
      if c = ' ' ∧ mode = .encodeQueryComponent then ['+']
      else ['%', upperhex (c.toNat / 16 % 16), upperhex (c.toNat % 16)]
    else [c])

/-- The function `validEncoded`: whether `s` is a valid encoded path or
fragment. -/
def validEncoded (s : List Char) (mode : encoding) : Bool :=
  s.all (fun c =>
    if c ∈ ['!', '$', '&', Char.ofNat 39, '(', ')', '*', '+', ',', ';', '=', ':', '@', '[',
        ']', '%'] then true
    else !shouldEscape c mode)

/-- The function `stringContainsCTLByte`. -/
def stringContainsCTLByte (s : List Char) : Bool :=
  s.any (fun b => decide (b.toNat < 32 ∨ b.toNat = 127))

/-- The loop of `getScheme`: `seen` are the bytes before the current one. -/
def getSchemeLoop (rawURL seen : List Char) : List Char → Except GoError (List Char × List Char)
  | [] => .ok ([], rawURL)
  | c :: rest =>
    if ('a' ≤ c ∧ c ≤ 'z') ∨ ('A' ≤ c ∧ c ≤ 'Z') then getSchemeLoop rawURL (seen ++ [c]) rest
    else if ('0' ≤ c ∧ c ≤ '9') ∨ c = '+' ∨ c = '-' ∨ c = '.' then
      if seen = [] then .ok ([], rawURL) else getSchemeLoop rawURL (seen ++ [c]) rest
    else if c = ':' then
      if seen = [] then .error (.other "missing protocol scheme") else .ok (seen, rest)
    else .ok ([], rawURL)

/-- The function `getScheme`: the scheme of `rawURL` and what follows its colon,
or no scheme and `rawURL`. -/
def getScheme (rawURL : List Char) : Except GoError (List Char × List Char) :=
  getSchemeLoop rawURL [] rawURL

/-- The call `strings.Cut(s, sep)` for a separator of one byte: what is before
the first `sep`, what is after it, and whether there is one. -/
def Cut : List Char → Char → List Char × List Char × Bool
  | [], _ => ([], [], false)
  | c :: rest, sep =>
    if c = sep then ([], rest, true)
    else ((c :: (Cut rest sep).1), (Cut rest sep).2.1, (Cut rest sep).2.2)

/-- What is before and what is after the last `sep` of `s`, as
`strings.LastIndex` locates it; `none` when there is no `sep`. -/
def CutLast (s : List Char) (sep : Char) : Option (List Char × List Char) :=
  if (Cut s.reverse sep).2.2 then
    some ((Cut s.reverse sep).2.1.reverse, (Cut s.reverse sep).1.reverse)
  else none

/-- What is before the first occurrence of `pat` in a string and the string from
that occurrence on, as `strings.Index` locates it; `none` when there is none. -/
def CutAt (pat : List Char) : List Char → Option (List Char × List Char)
  | [] => if pat = [] then some ([], []) else none
  | c :: rest =>
    if pat.isPrefixOf (c :: rest) then some ([], c :: rest)
    else
      match CutAt pat rest with
      | some r => some (c :: r.1, r.2)
      | none => none

/-- The function `validOptionalPort`: empty, or a colon and digits. -/
def validOptionalPort (port : List Char) : Bool :=
  match port with
  | [] => true
  | c :: rest => decide (c = ':') && rest.all (fun b => decide ('0' ≤ b ∧ b ≤ '9'))

/-- The function `parseHost`. -/
def parseHost (host : List Char) : Except GoError (List Char) :=
  if ['['].isPrefixOf host then
    match CutLast host ']' with
    | none => .error (.other "missing ']' in host")
    | some (inside, colonPort) =>
      if ¬ validOptionalPort colonPort then
        .error (.other ("invalid port " ++ quote colonPort ++ " after host"))
      else
        match CutAt ['%', '2', '5'] inside with
        | some (address, zone) =>
          match unescape address .encodeHost with
          | .error err => .error err
          | .ok host1 =>
            match unescape zone .encodeZone with
            | .error err => .error err
            | .ok host2 =>
              match unescape (']' :: colonPort) .encodeHost with
              | .error err => .error err
              | .ok host3 => .ok (host1 ++ host2 ++ host3)
        | none => unescape host .encodeHost
  else
    match CutLast host ':' with
    | some (_, port) =>
      if ¬ validOptionalPort (':' :: port) then
        .error (.other ("invalid port " ++ quote (':' :: port) ++ " after host"))
      else unescape host .encodeHost
    | none => unescape host .encodeHost

/-- The function `validUserinfo`. -/
def validUserinfo (s : List Char) : Bool :=
  s.all (fun r =>
    decide (('A' ≤ r ∧ r ≤ 'Z') ∨ ('a' ≤ r ∧ r ≤ 'z') ∨ ('0' ≤ r ∧ r ≤ '9') ∨
      r ∈ ['-', '.', '_', ':', '~', '!', '$', '&', Char.ofNat 39, '(', ')', '*', '+', ',',
        ';', '=', '%', '@']))

/-- The function `parseAuthority`: the user information and the host of
`[userinfo@]host`. -/
def parseAuthority (authority : List Char) : Except GoError (Option Userinfo × List Char) :=
  match CutLast authority '@' with
  | none =>
    match parseHost authority with
    | .error err => .error err
    | .ok host => .ok (none, host)
  | some (userinfo, hostport) =>
    match parseHost hostport with
    | .error err => .error err
    | .ok host =>
      if ¬ validUserinfo userinfo then .error (.other "net/url: invalid userinfo")
      else if ¬ (Cut userinfo ':').2.2 then
        match unescape userinfo .encodeUserPassword with
        | .error err => .error err
        | .ok username => .ok (some ⟨String.mk username, "", false⟩, host)
      else
        match unescape (Cut userinfo ':').1 .encodeUserPassword with
        | .error err => .error err
        | .ok username =>
          match unescape (Cut userinfo ':').2.1 .encodeUserPassword with
          | .error err => .error err
          | .ok password => .ok (some ⟨String.mk username, String.mk password, true⟩, host)

/-- The method `setPath`: `Path` is the unescaped `p`, and `RawPath` is `p` when
escaping `Path` does not give `p` back. -/
def setPath (u : URL) (p : List Char) : Except GoError URL :=
  match unescape p .encodePath with
  | .error err => .error err
  | .ok path =>
    .ok { u with
      Path := String.mk path
      RawPath := if p = escape path .encodePath then "" else String.mk p }

/-- The method `setFragment`, like `setPath` for the fragment. -/
def setFragment (u : URL) (f : List Char) : Except GoError URL :=
  match unescape f .encodeFragment with
  | .error err => .error err
  | .ok frag =>
    .ok { u with
      Fragment := String.mk frag
      RawFragment := if f = escape frag .encodeFragment then "" else String.mk f }

/-- The function `parse(rawURL, false)`: a URL without fragment. -/
def parse (rawURL : List Char) : Except GoError URL :=
  if stringContainsCTLByte rawURL then
    .error (.other "net/url: invalid control character in URL")
  else if rawURL = ['*'] then .ok { emptyURL with Path := "*" }
  else
    match getScheme rawURL with
    | .error err => .error err
    | .ok (scheme, afterScheme) =>
      let url : URL := { emptyURL with Scheme := String.mk (scheme.map Char.toLower) }
      let forceQuery : Bool :=
        decide (afterScheme.getLast? = some '?' ∧ afterScheme.count '?' = 1)
      let rest : List Char :=
        if forceQuery then afterScheme.dropLast else (Cut afterScheme '?').1
      let url : URL :=
        if forceQuery then { url with ForceQuery := true }
        else { url with RawQuery := String.mk (Cut afterScheme '?').2.1 }
      if ¬ ['/'].isPrefixOf rest ∧ url.Scheme ≠ "" then
        .ok { url with Opaque := String.mk rest }
      else if ¬ ['/'].isPrefixOf rest ∧ ':' ∈ (Cut rest '/').1 then
        .error (.other "first path segment in URL cannot contain colon")
      else if (url.Scheme ≠ "" ∨ ¬ ['/', '/', '/'].isPrefixOf rest) ∧
          ['/', '/'].isPrefixOf rest then
        let afterSlashes := rest.drop 2
        let authority := (Cut afterSlashes '/').1
        let path : List Char :=
          if (Cut afterSlashes '/').2.2 then '/' :: (Cut afterSlashes '/').2.1 else []
        match parseAuthority authority with
        | .error err => .error err
        | .ok (user, host) => setPath { url with User := user, Host := String.mk host } path
      else if url.Scheme ≠ "" ∧ ['/'].isPrefixOf rest then
        setPath { url with OmitHost := true } rest
      else setPath url rest

/-- The function `url.Parse`. -/
def Parse (rawURL : String) : Except GoError URL :=
  match parse (Cut rawURL.toList '#').1 with
  | .error err =>
    .error (.other ("parse " ++ quote (Cut rawURL.toList '#').1 ++ ": " ++ err.Error))
  | .ok url =>
    if (Cut rawURL.toList '#').2.1 = [] then .ok url
    else
      match setFragment url (Cut rawURL.toList '#').2.1 with
      | .error err => .error (.other ("parse " ++ quote rawURL.toList ++ ": " ++ err.Error))
      | .ok withFragment => .ok withFragment

/-- The method `(*Userinfo).String`. -/
def Userinfo.String (ui : Userinfo) : String :=
  String.mk (escape ui.username.toList .encodeUserPassword) ++
    (if ui.passwordSet then ":" ++ String.mk (escape ui.password.toList .encodeUserPassword)
      else "")

/-- Whether `unescape` succeeds on `raw` and gives `plain`. -/
def unescapesTo (raw : List Char) (mode : encoding) (plain : List Char) : Bool :=
  match unescape raw mode with
  | .ok p => decide (p = plain)
  | .error _ => false

/-- The method `(*URL).EscapedPath`. -/
def EscapedPath (u : URL) : String :=
  if u.RawPath ≠ "" ∧ validEncoded u.RawPath.toList .encodePath = true ∧
      unescapesTo u.RawPath.toList .encodePath u.Path.toList = true then u.RawPath
  else if u.Path = "*" then "*"
  else String.mk (escape u.Path.toList .encodePath)

/-- The method `(*URL).EscapedFragment`. -/
def EscapedFragment (u : URL) : String :=
  if u.RawFragment ≠ "" ∧ validEncoded u.RawFragment.toList .encodeFragment = true ∧
      unescapesTo u.RawFragment.toList .encodeFragment u.Fragment.toList = true then
    u.RawFragment
  else String.mk (escape u.Fragment.toList .encodeFragment)

/-- What `(*URL).String` writes before the query: the scheme, then the opaque
part or the authority and the path. -/
def stringBeforeQuery (u : URL) : String :=
  let buf : String := if u.Scheme ≠ "" then u.Scheme ++ ":" else ""
  if u.Opaque ≠ "" then buf ++ u.Opaque
  else
    let buf : String :=
      if u.Scheme ≠ "" ∨ u.Host ≠ "" ∨ u.User.isSome then
        if u.OmitHost ∧ u.Host = "" ∧ u.User.isNone then buf
        else
          let buf : String :=
            if u.Host ≠ "" ∨ u.Path ≠ "" ∨ u.User.isSome then buf ++ "//" else buf
          let buf : String :=
            match u.User with
            | some ui => buf ++ ui.String ++ "@"
            | none => buf
          if u.Host ≠ "" then buf ++ String.mk (escape u.Host.toList .encodeHost) else buf
      else buf
    let path := EscapedPath u
    let buf : String :=
      if path ≠ "" ∧ path.toList.head? ≠ some '/' ∧ u.Host ≠ "" then buf ++ "/" else buf
    let buf : String :=
      if buf = "" ∧ ':' ∈ (Cut path.toList '/').1 then buf ++ "./" else buf
    buf ++ path

/-- The method `(*URL).String`. -/
def URLString (u : URL) : String :=
  stringBeforeQuery u ++
    (if u.ForceQuery ∨ u.RawQuery ≠ "" then "?" ++ u.RawQuery else "") ++
    (if u.Fragment ≠ "" then "#" ++ EscapedFragment u else "")

/-! ## The SDK -/

/-- Modelled from the spec: `golangsdk.NormalizeURL` is not among the source
files. Section 6: the next link is "rewritten against a normalized base
endpoint"; a normalized endpoint ends in "/", which is added when it is not
there. -/
def NormalizeURL (url : String) : String :=
  if url.toList.getLast? = some '/' then url else url ++ "/"

/-- The call `strings.TrimPrefix(s, "/")`: `s` without one leading "/". -/
def TrimPrefix (s : String) : String :=
  match s.toList with
  | '/' :: rest => String.mk rest
  | _ => s

/-- The function `nextPageURL`. `BaseEndpoint` is `utils.BaseEndpoint` of the
SDK, which is not among the source files. -/
def nextPageURL (BaseEndpoint : String → Except GoError String)
    (serviceURL requestedNext : String) : String × Option GoError :=
  match BaseEndpoint serviceURL with
  | .error err => ("", some err)
  | .ok base =>
    match Parse requestedNext with
    | .error err => ("", some err)
    | .ok requestedNextURL =>
      let base := NormalizeURL base
      let nextPath := base ++ TrimPrefix requestedNextURL.Path
      match Parse nextPath with
      | .error err => ("", some err)
      | .ok nextURL =>
        let nextURL := { nextURL with RawQuery := requestedNextURL.RawQuery }
        (URLString nextURL, none)

/-- The answer of `utils.BaseEndpoint` for the endpoint `http://h/v2/` of the
examples: the endpoint without its version; any other string is answered with
an error. -/
def sampleBaseEndpoint : String → Except GoError String :=
  fun endpoint =>
    if endpoint = "http://h/v2/" then .ok "http://h/"
    else .error (.other "not an endpoint of the examples")

/-! ## Plain endpoints and links -/

/-- The bytes of a plain scheme: lower-case letters. -/
def schemeBytes : List Char :=
  "abcdefghijklmnopqrstuvwxyz".toList

/-- The bytes of a plain host name: letters, digits, "." and "-". -/
def hostBytes : List Char :=
  "abcdefghijklmnopqrstuvwxyzABCDEFGHIJKLMNOPQRSTUVWXYZ0123456789.-".toList

/-- The bytes of a plain path: the unreserved bytes and "/". -/
def pathBytes : List Char :=
  "abcdefghijklmnopqrstuvwxyzABCDEFGHIJKLMNOPQRSTUVWXYZ0123456789-_.~/".toList

end Images

/-! # Theorems -/

namespace Dms

/-! ## The status accessors -/

/-- C1: when `Get` fails with a 404, the accessor of the create-wait and the
delete-wait returns the status "DELETED" with a nil error; both waits use this
accessor, and "DELETED" is the target state of the delete-wait. -/
theorem rabbitmqInstanceStateRefreshFunc_not_found (Get : String → GetResult)
    (instanceID : String) (v : Option Instance) (err : GoError) (timeout : Nat)
    (hget : Get instanceID = .fail v err) (h404 : err.is404 = true) :
    rabbitmqInstanceStateRefreshFunc Get instanceID = ⟨v, "DELETED", none⟩ ∧
    (createStateConf Get instanceID timeout).Refresh () = ⟨v, "DELETED", none⟩ ∧
    (deleteStateConf Get instanceID timeout).Refresh () = ⟨v, "DELETED", none⟩ ∧
    "DELETED" ∈ (deleteStateConf Get instanceID timeout).Target := by
  have h : rabbitmqInstanceStateRefreshFunc Get instanceID = ⟨v, "DELETED", none⟩ := by
    simp [rabbitmqInstanceStateRefreshFunc, hget, h404]
  exact ⟨h, h, h, by simp [deleteStateConf]⟩

/-- Witness of C1 on a `Get` that answers 404. -/
theorem rabbitmqInstanceStateRefreshFunc_not_found_witness :
    rabbitmqInstanceStateRefreshFunc getNotFound "i-1" = ⟨none, "DELETED", none⟩ ∧
    (createStateConf getNotFound "i-1" 3000).Refresh () = ⟨none, "DELETED", none⟩ ∧
    (deleteStateConf getNotFound "i-1" 3000).Refresh () = ⟨none, "DELETED", none⟩ ∧
    "DELETED" ∈ (deleteStateConf getNotFound "i-1" 3000).Target :=
  rabbitmqInstanceStateRefreshFunc_not_found getNotFound "i-1" none
    (.ErrDefault404 "Resource not found") 3000 rfl rfl

/-- C2, refuted as stated: on a 404 the resize-wait accessor does not return
what the create/delete-wait accessor returns; it reports "failed" with a
non-nil error where the other reports "DELETED" with a nil error. -/
theorem rabbitMQResizeStateRefresh_not_found_counterexample :
    getNotFound "i-1" = .fail none (.ErrDefault404 "Resource not found") ∧
    (GoError.ErrDefault404 "Resource not found").is404 = true ∧
    rabbitmqInstanceStateRefreshFunc getNotFound "i-1" = ⟨none, "DELETED", none⟩ ∧
    rabbitMQResizeStateRefresh getNotFound "i-1" "p-new" ≠
      rabbitmqInstanceStateRefreshFunc getNotFound "i-1" ∧
    (rabbitMQResizeStateRefresh getNotFound "i-1" "p-new").state = "failed" ∧
    (rabbitMQResizeStateRefresh getNotFound "i-1" "p-new").err ≠ none := by
  decide

/-- C2, amended: on a 404 the two accessors return the same entity but differ in
the rest: the create/delete-wait accessor reports "DELETED" with a nil error,
the resize-wait accessor reports "failed" with an error that names the instance
ID; "failed" is neither a pending nor a target state of the resize-wait. -/
theorem rabbitMQResizeStateRefresh_not_found (Get : String → GetResult)
    (instanceID productID : String) (v : Option Instance) (err : GoError) (timeout : Nat)
    (hget : Get instanceID = .fail v err) (h404 : err.is404 = true) :
    rabbitmqInstanceStateRefreshFunc Get instanceID = ⟨v, "DELETED", none⟩ ∧
    rabbitMQResizeStateRefresh Get instanceID productID =
      ⟨v, "failed", some (.other
        ("unable to resize RabbitMQ instance which has been deleted: " ++ instanceID))⟩ ∧
    (resizeStateConf Get instanceID productID timeout).Refresh () =
      rabbitMQResizeStateRefresh Get instanceID productID ∧
    "failed" ∉ (resizeStateConf Get instanceID productID timeout).Pending ∧
    "failed" ∉ (resizeStateConf Get instanceID productID timeout).Target := by
  refine ⟨?_, ?_, rfl, ?_, ?_⟩
  · simp [rabbitmqInstanceStateRefreshFunc, hget, h404]
  · simp [rabbitMQResizeStateRefresh, hget, h404]
  · simp [resizeStateConf]
  · simp [resizeStateConf]

/-- Witness of the amended C2 on a `Get` that answers 404. -/
theorem rabbitMQResizeStateRefresh_not_found_witness :
    rabbitmqInstanceStateRefreshFunc getNotFound "i-1" = ⟨none, "DELETED", none⟩ ∧
    rabbitMQResizeStateRefresh getNotFound "i-1" "p-new" =
      ⟨none, "failed", some (.other
        ("unable to resize RabbitMQ instance which has been deleted: " ++ "i-1"))⟩ ∧
    (resizeStateConf getNotFound "i-1" "p-new" 3000).Refresh () =
      rabbitMQResizeStateRefresh getNotFound "i-1" "p-new" ∧
    "failed" ∉ (resizeStateConf getNotFound "i-1" "p-new" 3000).Pending ∧
    "failed" ∉ (resizeStateConf getNotFound "i-1" "p-new" 3000).Target :=
  rabbitMQResizeStateRefresh_not_found getNotFound "i-1" "p-new" none
    (.ErrDefault404 "Resource not found") 3000 rfl rfl

/-- C3: when `Get` fails with an error that is not a 404, both accessors return
that very error with a nil entity. -/
theorem refresh_other_error (Get : String → GetResult) (instanceID productID : String)
    (v : Option Instance) (err : GoError)
    (hget : Get instanceID = .fail v err) (h404 : err.is404 = false) :
    (rabbitmqInstanceStateRefreshFunc Get instanceID).err = some err ∧
    (rabbitmqInstanceStateRefreshFunc Get instanceID).entity = none ∧
    (rabbitMQResizeStateRefresh Get instanceID productID).err = some err ∧
    (rabbitMQResizeStateRefresh Get instanceID productID).entity = none := by
  simp [rabbitmqInstanceStateRefreshFunc, rabbitMQResizeStateRefresh, hget, h404]

/-- Witness of C3 on a `Get` that answers with a server error. -/
theorem refresh_other_error_witness :
    (rabbitmqInstanceStateRefreshFunc getServerError "i-1").err =
      some (.other "Internal Server Error") ∧
    (rabbitmqInstanceStateRefreshFunc getServerError "i-1").entity = none ∧
    (rabbitMQResizeStateRefresh getServerError "i-1" "p-new").err =
      some (.other "Internal Server Error") ∧
    (rabbitMQResizeStateRefresh getServerError "i-1" "p-new").entity = none :=
  refresh_other_error getServerError "i-1" "p-new" none (.other "Internal Server Error") rfl rfl

/-- C4: for an instance that `Get` returns, the resize-wait accessor reports
"RUNNING" exactly when the instance is "RUNNING" with the requested product ID;
"RUNNING" with another product ID is reported as "PENDING", a pending state of
the resize-wait; every other status is reported unchanged; the error is nil and
the entity is the instance. -/
theorem rabbitMQResizeStateRefresh_ok (Get : String → GetResult)
    (instanceID productID : String) (v : Instance) (timeout : Nat)
    (hget : Get instanceID = .ok v) :
    ((rabbitMQResizeStateRefresh Get instanceID productID).state = "RUNNING" ↔
      v.Status = "RUNNING" ∧ v.ProductID = productID) ∧
    (v.Status = "RUNNING" → v.ProductID ≠ productID →
      (rabbitMQResizeStateRefresh Get instanceID productID).state = "PENDING") ∧
    "PENDING" ∈ (resizeStateConf Get instanceID productID timeout).Pending ∧
    (v.Status ≠ "RUNNING" →
      (rabbitMQResizeStateRefresh Get instanceID productID).state = v.Status) ∧
    (rabbitMQResizeStateRefresh Get instanceID productID).err = none ∧
    (rabbitMQResizeStateRefresh Get instanceID productID).entity = some v := by
  by_cases hs : v.Status = "RUNNING" <;> by_cases hp : v.ProductID = productID <;>
    simp [rabbitMQResizeStateRefresh, resizeStateConf, hget, hs, hp]

/-- Witness of C4 on a running instance whose product is still the old one. -/
theorem rabbitMQResizeStateRefresh_ok_witness :
    ((rabbitMQResizeStateRefresh getSample "i-1" "p-new").state = "RUNNING" ↔
      sampleInstance.Status = "RUNNING" ∧ sampleInstance.ProductID = "p-new") ∧
    (sampleInstance.Status = "RUNNING" → sampleInstance.ProductID ≠ "p-new" →
      (rabbitMQResizeStateRefresh getSample "i-1" "p-new").state = "PENDING") ∧
    "PENDING" ∈ (resizeStateConf getSample "i-1" "p-new" 3000).Pending ∧
    (sampleInstance.Status ≠ "RUNNING" →
      (rabbitMQResizeStateRefresh getSample "i-1" "p-new").state = sampleInstance.Status) ∧
    (rabbitMQResizeStateRefresh getSample "i-1" "p-new").err = none ∧
    (rabbitMQResizeStateRefresh getSample "i-1" "p-new").entity = some sampleInstance :=
  rabbitMQResizeStateRefresh_ok getSample "i-1" "p-new" sampleInstance 3000 rfl


/-! ## Delete -/

/-- C5: when the delete call answers 404, `resourceDmsRabbitmqInstanceDelete`
returns no error diagnostic, leaves the resource data with an empty ID, and its
only effect is the delete call: it starts no wait. -/
theorem resourceDmsRabbitmqInstanceDelete_not_found (env : Env) (d : ResourceData)
    (err : GoError) (hclient : env.DmsV2Client = none)
    (hdel : env.Delete d.Id = some err) (h404 : err.is404 = true) :
    (resourceDmsRabbitmqInstanceDelete env d).diags.HasError = false ∧
    (resourceDmsRabbitmqInstanceDelete env d).d.Id = "" ∧
    (resourceDmsRabbitmqInstanceDelete env d).trace = [.ApiDelete d.Id] ∧
    ∀ e ∈ (resourceDmsRabbitmqInstanceDelete env d).trace, e.isWait = false := by
  simp [resourceDmsRabbitmqInstanceDelete, hclient, hdel, CheckDeletedDiag, h404,
    ResourceData.SetId, Diagnostics.HasError, Effect.isWait]

/-- Witness of C5: deleting the sample instance when it is already gone. -/
theorem resourceDmsRabbitmqInstanceDelete_not_found_witness :
    (resourceDmsRabbitmqInstanceDelete goneEnv (sampleData.SetId "i-1")).diags.HasError = false ∧
    (resourceDmsRabbitmqInstanceDelete goneEnv (sampleData.SetId "i-1")).d.Id = "" ∧
    (resourceDmsRabbitmqInstanceDelete goneEnv (sampleData.SetId "i-1")).trace =
      [.ApiDelete (sampleData.SetId "i-1").Id] ∧
    ∀ e ∈ (resourceDmsRabbitmqInstanceDelete goneEnv (sampleData.SetId "i-1")).trace,
      e.isWait = false :=
  resourceDmsRabbitmqInstanceDelete_not_found goneEnv (sampleData.SetId "i-1")
    (.ErrDefault404 "Resource not found") rfl rfl rfl

/-! ## Read: the attribute writes -/

/-- The errors `setAttributes` collects are those `setError` answers for the
keys, whatever the resource data. -/
theorem setAttributes_errors (setError : String → Option GoError) (d : ResourceData)
    (sets : List (String × (ResourceData → ResourceData))) :
    (setAttributes setError d sets).2.1 = sets.map (fun s => setError s.1) := by
  induction sets generalizing d with
  | nil => rfl
  | cons s rest ih =>
    obtain ⟨key, write⟩ := s
    simp only [setAttributes, List.map_cons]
    rw [ih]
    cases h : setError key <;> simp [ResourceData.Set, h]

/-- Every call of the list is made, in order. -/
theorem setAttributes_trace (setError : String → Option GoError) (d : ResourceData)
    (sets : List (String × (ResourceData → ResourceData))) :
    (setAttributes setError d sets).2.2 = sets.map (fun s => Effect.Set s.1) := by
  induction sets generalizing d with
  | nil => rfl
  | cons s rest ih =>
    obtain ⟨key, write⟩ := s
    simp only [setAttributes, List.map_cons]
    rw [ih]

/-- When no call fails, the resource data holds every write. -/
theorem setAttributes_data (setError : String → Option GoError) (d : ResourceData)
    (sets : List (String × (ResourceData → ResourceData)))
    (hok : ∀ s ∈ sets, setError s.1 = none) :
    (setAttributes setError d sets).1 = sets.foldl (fun x s => s.2 x) d := by
  induction sets generalizing d with
  | nil => rfl
  | cons s rest ih =>
    obtain ⟨key, write⟩ := s
    have hk : setError key = none := hok (key, write) (List.mem_cons_self _ _)
    simp only [setAttributes, List.foldl_cons, ResourceData.Set, hk]
    exact ih _ (fun s hs => hok s (List.mem_cons_of_mem _ hs))

/-- Writes that keep the ID leave the ID as it was. -/
theorem setAttributes_Id (setError : String → Option GoError) (d : ResourceData)
    (sets : List (String × (ResourceData → ResourceData)))
    (hid : ∀ s ∈ sets, ∀ x, (s.2 x).Id = x.Id) :
    (setAttributes setError d sets).1.Id = d.Id := by
  induction sets generalizing d with
  | nil => rfl
  | cons s rest ih =>
    obtain ⟨key, write⟩ := s
    simp only [setAttributes]
    rw [ih _ (fun s hs => hid s (List.mem_cons_of_mem _ hs))]
    cases h : setError key
    · simpa [ResourceData.Set, h] using hid (key, write) (List.mem_cons_self _ _) d
    · simp [ResourceData.Set, h]

/-- No attribute write of Read touches the ID. -/
theorem readAttributes_Id (region : String) (v : Instance) (asCodes : List String) :
    ∀ s ∈ readAttributes region v asCodes, ∀ x, (s.2 x).Id = x.Id := by
  simp [readAttributes]


/-- The tag step of Read: the errors it adds are `tagErrors` of the ID, and it
changes no attribute but `tags`. -/
theorem readTags_spec (env : Env) (d : ResourceData) (mErr : List GoError) :
    (readTags env d mErr).2.1 = mErr ++ tagErrors env d.Id ∧
    (∃ tags, (readTags env d mErr).1 = { d with tags := tags }) ∧
    Effect.ApiTagsGet d.Id ∈ (readTags env d mErr).2.2 ∧
    ((∃ ts, env.TagsGet env.engineRabbitMQ d.Id = .ok ts) →
      Effect.Set "tags" ∈ (readTags env d mErr).2.2) := by
  unfold readTags tagErrors
  cases hg : env.TagsGet env.engineRabbitMQ d.Id with
  | error e => simp [multierrorAppend]; exact ⟨d.tags, rfl⟩
  | ok ts =>
    cases hs : env.setError "tags" with
    | none => simp [ResourceData.Set, hs]
    | some e => simp [ResourceData.Set, hs, multierrorAppend]; exact ⟨d.tags, rfl⟩

/-- The multierror of Read after `Get` answered `v`: the error of the zone
conversion, then the errors of the attribute writes in order, then those of the
tag step. -/
theorem readInstance_spec (env : Env) (d : ResourceData) (v : Instance) :
    (readInstance env d v).diags =
      (if (getAvailableZoneCodeByID env.availableZones v.AvailableZones).2.toList ++
          (readAttributes (env.GetRegion d) v
            (getAvailableZoneCodeByID env.availableZones v.AvailableZones).1).filterMap
            (fun s => env.setError s.1) ++ tagErrors env v.InstanceID = [] then []
       else diagErrorf "failed to set attributes for DMS RabbitMQ instance"
        ((getAvailableZoneCodeByID env.availableZones v.AvailableZones).2.toList ++
          (readAttributes (env.GetRegion d) v
            (getAvailableZoneCodeByID env.availableZones v.AvailableZones).1).filterMap
            (fun s => env.setError s.1) ++ tagErrors env v.InstanceID)) := by
  unfold readInstance
  simp only []
  rw [(readTags_spec env _ _).1, setAttributes_errors, setAttributes_Id _ _ _ (readAttributes_Id _ _ _)]
  have h1 : ∀ o : Option GoError, multierrorAppend [] [o] = o.toList := by
    intro o; cases o <;> rfl
  have h2 : ∀ (m : List GoError) (l : List (String × (ResourceData → ResourceData))),
      multierrorAppend m (l.map (fun s => env.setError s.1)) =
        m ++ l.filterMap (fun s => env.setError s.1) := by
    intro m l
    simp [multierrorAppend, List.filterMap_map, Function.comp_def]
  rw [h1, h2]
  simp only [ResourceData.SetId]
  generalize (getAvailableZoneCodeByID env.availableZones v.AvailableZones).2.toList ++
    (readAttributes (env.GetRegion d) v
      (getAvailableZoneCodeByID env.availableZones v.AvailableZones).1).filterMap
      (fun s => env.setError s.1) ++ tagErrors env v.InstanceID = collected
  by_cases h : collected = [] <;> simp [h]


/-- The effects of Read after `Get` answered `v`: one `d.Set` per attribute
write, in order, then those of the tag step. -/
theorem readInstance_trace (env : Env) (d : ResourceData) (v : Instance) :
    ∃ rest, (readInstance env d v).trace =
      (readAttributes (env.GetRegion d) v
        (getAvailableZoneCodeByID env.availableZones v.AvailableZones).1).map
        (fun s => Effect.Set s.1) ++ rest ∧
      ((∃ ts, env.TagsGet env.engineRabbitMQ v.InstanceID = .ok ts) →
        Effect.Set "tags" ∈ rest) := by
  have hid := setAttributes_Id env.setError (d.SetId v.InstanceID) _
    (readAttributes_Id (env.GetRegion d) v
      (getAvailableZoneCodeByID env.availableZones v.AvailableZones).1)
  refine ⟨(readTags env (setAttributes env.setError (d.SetId v.InstanceID)
    (readAttributes (env.GetRegion d) v
      (getAvailableZoneCodeByID env.availableZones v.AvailableZones).1)).1
    (multierrorAppend (multierrorAppend []
      [(getAvailableZoneCodeByID env.availableZones v.AvailableZones).2])
      (setAttributes env.setError (d.SetId v.InstanceID)
        (readAttributes (env.GetRegion d) v
          (getAvailableZoneCodeByID env.availableZones v.AvailableZones).1)).2.1)).2.2, ?_, ?_⟩
  · unfold readInstance
    simp only []
    rw [setAttributes_trace]
    split <;> rfl
  · intro h
    apply (readTags_spec env _ _).2.2.2
    rw [hid]
    exact h

/-- C10: once `Get` has answered, `resourceDmsRabbitmqInstanceRead` attempts
every attribute write whatever the earlier ones answered (and the write of
`tags` whenever the tags were fetched); it returns an error diagnostic exactly
when the zone-code conversion, an attribute write, the tag fetch or the write
of `tags` failed; and then it returns one diagnostic, which holds all the
collected errors in order. -/
theorem resourceDmsRabbitmqInstanceRead_collects_errors (env : Env) (d : ResourceData)
    (v : Instance) (hclient : env.DmsV2Client = none) (hget : env.Get d.Id = .ok v) :
    (∀ key ∈ ["region", "name", "description", "engine", "engine_version", "specification",
        "storage_space", "vpc_id", "security_group_id", "network_id", "available_zones",
        "availability_zones", "product_id", "maintain_begin", "maintain_end",
        "enable_public_ip", "public_ip_id", "ssl_enable", "storage_spec_code",
        "enterprise_project_id", "used_storage_space", "connect_address",
        "management_connect_address", "manegement_connect_address", "port", "status",
        "resource_spec_code", "user_id", "user_name", "type", "access_user"],
      Effect.Set key ∈ (resourceDmsRabbitmqInstanceRead env d).trace) ∧
    ((∃ ts, env.TagsGet env.engineRabbitMQ v.InstanceID = .ok ts) →
      Effect.Set "tags" ∈ (resourceDmsRabbitmqInstanceRead env d).trace) ∧
    ((resourceDmsRabbitmqInstanceRead env d).diags.HasError = true ↔
      ((getAvailableZoneCodeByID env.availableZones v.AvailableZones).2 ≠ none ∨
        (∃ s ∈ readAttributes (env.GetRegion d) v
            (getAvailableZoneCodeByID env.availableZones v.AvailableZones).1,
          env.setError s.1 ≠ none) ∨
        (∃ err, env.TagsGet env.engineRabbitMQ v.InstanceID = .error err) ∨
        ((∃ ts, env.TagsGet env.engineRabbitMQ v.InstanceID = .ok ts) ∧
          env.setError "tags" ≠ none))) ∧
    ((resourceDmsRabbitmqInstanceRead env d).diags.HasError = true →
      (resourceDmsRabbitmqInstanceRead env d).diags =
        [⟨.Error, "failed to set attributes for DMS RabbitMQ instance",
          (getAvailableZoneCodeByID env.availableZones v.AvailableZones).2.toList ++
            (readAttributes (env.GetRegion d) v
              (getAvailableZoneCodeByID env.availableZones v.AvailableZones).1).filterMap
              (fun s => env.setError s.1) ++ tagErrors env v.InstanceID⟩]) ∧
    ((resourceDmsRabbitmqInstanceRead env d).diags.HasError = false →
      (resourceDmsRabbitmqInstanceRead env d).diags = []) := by
  have hd : (resourceDmsRabbitmqInstanceRead env d).diags = (readInstance env d v).diags := by
    simp [resourceDmsRabbitmqInstanceRead, hclient, hget]
  have ht : (resourceDmsRabbitmqInstanceRead env d).trace =
      .ApiGet d.Id :: (readInstance env d v).trace := by
    simp [resourceDmsRabbitmqInstanceRead, hclient, hget]
  obtain ⟨rest, hrest, htags⟩ := readInstance_trace env d v
  rw [hd, ht, hrest, readInstance_spec]
  refine ⟨?_, ?_, ?_, ?_, ?_⟩
  · intro key hkey
    apply List.mem_cons_of_mem
    apply List.mem_append_left
    simp only [readAttributes, List.map_cons, List.map_nil]
    simpa using hkey
  · intro h
    exact List.mem_cons_of_mem _ (List.mem_append_right _ (htags h))
  · have htag : tagErrors env v.InstanceID ≠ [] ↔
        ((∃ err, env.TagsGet env.engineRabbitMQ v.InstanceID = .error err) ∨
          ((∃ ts, env.TagsGet env.engineRabbitMQ v.InstanceID = .ok ts) ∧
            env.setError "tags" ≠ none)) := by
      unfold tagErrors
      cases env.TagsGet env.engineRabbitMQ v.InstanceID with
      | error e => simp
      | ok ts => cases env.setError "tags" <;> simp
    have hzone : ∀ o : Option GoError, o.toList = [] ↔ o = none := by
      intro o; cases o <;> simp
    rw [← htag]
    split_ifs with h
    · simp only [List.append_eq_nil, hzone, List.filterMap_eq_nil_iff] at h
      simp [Diagnostics.HasError, h.1.1, h.2]
      exact fun a b hab => h.1.2 (a, b) hab
    · simp only [Diagnostics.HasError, diagErrorf, List.any_cons, List.any_nil, decide_True,
        Bool.or_false, true_iff]
      by_contra hcon
      apply h
      simp only [not_or, not_exists, not_and, not_not] at hcon
      simp only [List.append_eq_nil, hzone, List.filterMap_eq_nil_iff]
      exact ⟨⟨hcon.1, fun s hs => hcon.2.1 s hs⟩, hcon.2.2⟩
  · split_ifs with h
    · simp [Diagnostics.HasError]
    · intro _; rfl
  · split_ifs with h
    · intro _; rfl
    · simp [Diagnostics.HasError, diagErrorf]


/-- Witness of C10: with a failing zone query and failing writes of `name` and
`port`, Read still writes `access_user` and returns one diagnostic that holds
the three errors. -/
theorem resourceDmsRabbitmqInstanceRead_collects_errors_witness :
    failingEnv.DmsV2Client = none ∧
    failingEnv.Get (sampleData.SetId "i-1").Id = .ok sampleInstance ∧
    (resourceDmsRabbitmqInstanceRead failingEnv (sampleData.SetId "i-1")).diags =
      [⟨.Error, "failed to set attributes for DMS RabbitMQ instance",
        [.other "error querying available Zones", .other "name: bad value",
          .other "port: bad value"]⟩] ∧
    Effect.Set "access_user" ∈
      (resourceDmsRabbitmqInstanceRead failingEnv (sampleData.SetId "i-1")).trace :=
  ⟨rfl, rfl,
    (resourceDmsRabbitmqInstanceRead_collects_errors failingEnv (sampleData.SetId "i-1")
      sampleInstance rfl rfl).2.2.2.1 (by decide),
    (resourceDmsRabbitmqInstanceRead_collects_errors failingEnv (sampleData.SetId "i-1")
      sampleInstance rfl rfl).1 "access_user" (by decide)⟩


/-! ## Read: single attributes -/

/-- A projection that every write that takes place keeps is kept by the whole
list of writes. -/
theorem setAttributes_keeps {α : Type} (f : ResourceData → α)
    (setError : String → Option GoError) (d : ResourceData)
    (sets : List (String × (ResourceData → ResourceData)))
    (hkeep : ∀ s ∈ sets, setError s.1 = none → ∀ x, f (s.2 x) = f x) :
    f (setAttributes setError d sets).1 = f d := by
  induction sets generalizing d with
  | nil => rfl
  | cons s rest ih =>
    obtain ⟨key, write⟩ := s
    simp only [setAttributes]
    rw [ih _ (fun s hs => hkeep s (List.mem_cons_of_mem _ hs))]
    cases h : setError key
    · simpa [ResourceData.Set, h] using hkeep (key, write) (List.mem_cons_self _ _) h d
    · simp [ResourceData.Set, h]

/-- A projection that the writes of `key` set to `val`, and that the other
writes keep, is `val` after the list when `key` is in it and its write succeeds. -/
theorem setAttributes_writes {α : Type} (f : ResourceData → α)
    (setError : String → Option GoError) (d : ResourceData)
    (sets : List (String × (ResourceData → ResourceData))) (key : String) (val : α)
    (hok : setError key = none) (hmem : ∃ s ∈ sets, s.1 = key)
    (hother : ∀ s ∈ sets, s.1 ≠ key → ∀ x, f (s.2 x) = f x)
    (hkey : ∀ s ∈ sets, s.1 = key → ∀ x, f (s.2 x) = val) :
    f (setAttributes setError d sets).1 = val := by
  induction sets generalizing d with
  | nil => obtain ⟨s, hs, _⟩ := hmem; cases hs
  | cons s rest ih =>
    obtain ⟨k, write⟩ := s
    simp only [setAttributes]
    by_cases hrest : ∃ s ∈ rest, s.1 = key
    · exact ih _ hrest (fun s hs => hother s (List.mem_cons_of_mem _ hs))
        (fun s hs => hkey s (List.mem_cons_of_mem _ hs))
    · have hk : k = key := by
        obtain ⟨s, hs, hsk⟩ := hmem
        rcases List.mem_cons.mp hs with h | h
        · rw [h] at hsk; exact hsk
        · exact absurd ⟨s, h, hsk⟩ hrest
      rw [setAttributes_keeps f setError _ rest (fun s hs _ =>
        hother s (List.mem_cons_of_mem _ hs) (fun h => hrest ⟨s, hs, h⟩))]
      simpa [ResourceData.Set, hk, hok] using hkey (k, write) (List.mem_cons_self _ _) hk d

/-- The attribute `available_zones` after Read: the zone IDs in the order of the
API when its write succeeds, the old value otherwise. -/
theorem readInstance_available_zones (env : Env) (d : ResourceData) (v : Instance) :
    (readInstance env d v).d.available_zones =
      if env.setError "available_zones" = none then v.AvailableZones
      else d.available_zones := by
  have htags : ∀ x m, (readTags env x m).1.available_zones = x.available_zones := by
    intro x m
    obtain ⟨tags, h⟩ := (readTags_spec env x m).2.1
    rw [h]
  have hd : (readInstance env d v).d.available_zones =
      (setAttributes env.setError (d.SetId v.InstanceID)
        (readAttributes (env.GetRegion d) v
          (getAvailableZoneCodeByID env.availableZones v.AvailableZones).1)).1.available_zones := by
    unfold readInstance
    simp only []
    split <;> exact htags _ _
  rw [hd]
  split_ifs with h
  · apply setAttributes_writes (fun x => x.available_zones) _ _ _ "available_zones" _ h
    · simp [readAttributes]
    · simp [readAttributes]
    · simp [readAttributes]
  · rw [setAttributes_keeps (fun x => x.available_zones)]
    · rfl
    · intro s hs hnone x
      have hne : s.1 ≠ "available_zones" := fun heq => h (heq ▸ hnone)
      revert s
      simp [readAttributes]

/-- The attribute `availability_zones` after Read: the set of the zone codes
when its write succeeds, the old value otherwise. -/
theorem readInstance_availability_zones (env : Env) (d : ResourceData) (v : Instance) :
    (readInstance env d v).d.availability_zones =
      if env.setError "availability_zones" = none then
        (getAvailableZoneCodeByID env.availableZones v.AvailableZones).1.toFinset
      else d.availability_zones := by
  have htags : ∀ x m, (readTags env x m).1.availability_zones = x.availability_zones := by
    intro x m
    obtain ⟨tags, h⟩ := (readTags_spec env x m).2.1
    rw [h]
  have hd : (readInstance env d v).d.availability_zones =
      (setAttributes env.setError (d.SetId v.InstanceID)
        (readAttributes (env.GetRegion d) v
          (getAvailableZoneCodeByID env.availableZones
            v.AvailableZones).1)).1.availability_zones := by
    unfold readInstance
    simp only []
    split <;> exact htags _ _
  rw [hd]
  split_ifs with h
  · apply setAttributes_writes (fun x => x.availability_zones) _ _ _ "availability_zones" _ h
    · simp [readAttributes]
    · simp [readAttributes]
    · simp [readAttributes]
  · rw [setAttributes_keeps (fun x => x.availability_zones)]
    · rfl
    · intro s hs hnone x
      have hne : s.1 ≠ "availability_zones" := fun heq => h (heq ▸ hnone)
      revert s
      simp [readAttributes]


/-! ## Read: the zone attributes -/

/-- The failure of the zone-code conversion does not depend on the IDs. -/
theorem getAvailableZoneCodeByID_error (zones : Except GoError (List AvailableZone))
    (ids ids' : List String) :
    (getAvailableZoneCodeByID zones ids).2 = (getAvailableZoneCodeByID zones ids').2 := by
  cases zones <;> rfl

/-- The zone codes of reordered IDs are the same codes, reordered. -/
theorem getAvailableZoneCodeByID_perm (zones : Except GoError (List AvailableZone))
    (ids ids' : List String) (hperm : ids'.Perm ids) :
    (getAvailableZoneCodeByID zones ids').1.Perm (getAvailableZoneCodeByID zones ids).1 := by
  cases zones with
  | error e => exact List.Perm.refl _
  | ok zs => exact hperm.filterMap _

/-- The errors of the attribute writes depend on the keys only. -/
theorem readAttributes_errors (setError : String → Option GoError) (region : String)
    (v v' : Instance) (codes codes' : List String) :
    (readAttributes region v codes).filterMap (fun s => setError s.1) =
      (readAttributes region v' codes').filterMap (fun s => setError s.1) := by
  simp only [readAttributes, List.filterMap_cons, List.filterMap_nil]

/-- C9, refuted as stated: two responses that differ only in the order of
their zones leave different `available_zones` in state. -/
theorem resourceDmsRabbitmqInstanceRead_zones_counterexample :
    swappedInstance = { sampleInstance with AvailableZones := ["az-id-2", "az-id-1"] } ∧
    swappedInstance.AvailableZones.Perm sampleInstance.AvailableZones ∧
    (resourceDmsRabbitmqInstanceRead sampleEnv (sampleData.SetId "i-1")).d.available_zones =
      ["az-id-1", "az-id-2"] ∧
    (resourceDmsRabbitmqInstanceRead { sampleEnv with Get := getSwapped }
      (sampleData.SetId "i-1")).d.available_zones = ["az-id-2", "az-id-1"] ∧
    (resourceDmsRabbitmqInstanceRead { sampleEnv with Get := getSwapped }
      (sampleData.SetId "i-1")).d.available_zones ≠
      (resourceDmsRabbitmqInstanceRead sampleEnv (sampleData.SetId "i-1")).d.available_zones := by
  decide

/-- C9, amended: for two responses that differ only in the order of their
zones, Read writes the same set to `availability_zones` and returns the same
diagnostics; `available_zones`, a list, holds the zone IDs in the order of the
response it was read from, so the two lists are permutations of each other. -/
theorem resourceDmsRabbitmqInstanceRead_zones (env : Env) (Get' : String → GetResult)
    (d : ResourceData) (v : Instance) (zones' : List String)
    (hclient : env.DmsV2Client = none) (hget : env.Get d.Id = .ok v)
    (hget' : Get' d.Id = .ok { v with AvailableZones := zones' })
    (hperm : zones'.Perm v.AvailableZones) :
    (resourceDmsRabbitmqInstanceRead { env with Get := Get' } d).d.availability_zones =
      (resourceDmsRabbitmqInstanceRead env d).d.availability_zones ∧
    (resourceDmsRabbitmqInstanceRead { env with Get := Get' } d).d.available_zones.Perm
      (resourceDmsRabbitmqInstanceRead env d).d.available_zones ∧
    (env.setError "available_zones" = none →
      (resourceDmsRabbitmqInstanceRead env d).d.available_zones = v.AvailableZones ∧
      (resourceDmsRabbitmqInstanceRead { env with Get := Get' } d).d.available_zones = zones') ∧
    (resourceDmsRabbitmqInstanceRead { env with Get := Get' } d).diags =
      (resourceDmsRabbitmqInstanceRead env d).diags := by
  have h1 : resourceDmsRabbitmqInstanceRead env d =
      ⟨(readInstance env d v).d, (readInstance env d v).diags,
        .ApiGet d.Id :: (readInstance env d v).trace⟩ := by
    simp [resourceDmsRabbitmqInstanceRead, hclient, hget]
  have h2 : resourceDmsRabbitmqInstanceRead { env with Get := Get' } d =
      ⟨(readInstance { env with Get := Get' } d { v with AvailableZones := zones' }).d,
        (readInstance { env with Get := Get' } d { v with AvailableZones := zones' }).diags,
        .ApiGet d.Id ::
          (readInstance { env with Get := Get' } d { v with AvailableZones := zones' }).trace⟩ := by
    simp [resourceDmsRabbitmqInstanceRead, hclient, hget']
  rw [h1, h2]
  simp only [readInstance_availability_zones, readInstance_available_zones, readInstance_spec]
  refine ⟨?_, ?_, ?_, ?_⟩
  · split_ifs
    · exact List.toFinset_eq_of_perm _ _ (getAvailableZoneCodeByID_perm _ _ _ hperm)
    · rfl
  · split_ifs
    · exact hperm
    · exact List.Perm.refl _
  · intro h
    simp [h]
  · have he := getAvailableZoneCodeByID_error env.availableZones zones' v.AvailableZones
    have hs := readAttributes_errors env.setError (env.GetRegion d)
      { v with AvailableZones := zones' } v
      (getAvailableZoneCodeByID env.availableZones zones').1
      (getAvailableZoneCodeByID env.availableZones v.AvailableZones).1
    have ht : tagErrors { env with Get := Get' } v.InstanceID = tagErrors env v.InstanceID := rfl
    simp only [he, hs, ht]

/-- Witness of the amended C9 on the sample instance and the same with its zones
swapped. -/
theorem resourceDmsRabbitmqInstanceRead_zones_witness :
    (resourceDmsRabbitmqInstanceRead { sampleEnv with Get := getSwapped }
      (sampleData.SetId "i-1")).d.availability_zones =
      (resourceDmsRabbitmqInstanceRead sampleEnv (sampleData.SetId "i-1")).d.availability_zones ∧
    (resourceDmsRabbitmqInstanceRead { sampleEnv with Get := getSwapped }
      (sampleData.SetId "i-1")).d.available_zones.Perm
      (resourceDmsRabbitmqInstanceRead sampleEnv (sampleData.SetId "i-1")).d.available_zones ∧
    (sampleEnv.setError "available_zones" = none →
      (resourceDmsRabbitmqInstanceRead sampleEnv (sampleData.SetId "i-1")).d.available_zones =
        sampleInstance.AvailableZones ∧
      (resourceDmsRabbitmqInstanceRead { sampleEnv with Get := getSwapped }
        (sampleData.SetId "i-1")).d.available_zones = ["az-id-2", "az-id-1"]) ∧
    (resourceDmsRabbitmqInstanceRead { sampleEnv with Get := getSwapped }
      (sampleData.SetId "i-1")).diags =
      (resourceDmsRabbitmqInstanceRead sampleEnv (sampleData.SetId "i-1")).diags :=
  resourceDmsRabbitmqInstanceRead_zones sampleEnv getSwapped (sampleData.SetId "i-1")
    sampleInstance ["az-id-2", "az-id-1"] rfl rfl rfl (by decide)


/-! ## Create followed by Read -/

/-- An error of `createStorageSpace` is an error diagnostic. -/
theorem createStorageSpace_error (env : Env) (d : ResourceData) (diags : Diagnostics)
    (h : createStorageSpace env d = .error diags) : diags.HasError = true := by
  unfold createStorageSpace at h
  simp only [] at h
  split_ifs at h
  split at h
  · cases h; rfl
  · split at h
    · cases h; rfl
    · cases h

/-- The storage space `createStorageSpace` answers: the configured one when it
is not 0, the parsed `Storage` of the selected product otherwise. -/
theorem createStorageSpace_ok (env : Env) (d : ResourceData) (storageSpace : Int)
    (h : createStorageSpace env d = .ok storageSpace) :
    (d.storage_space ≠ 0 → storageSpace = d.storage_space) ∧
    (d.storage_space = 0 → ∃ product,
      getRabbitMQProductDetail env.getProducts d.product_id d.engine_version = .ok product ∧
      ParseInt product.Storage 32 = .ok storageSpace) := by
  unfold createStorageSpace at h
  simp only [] at h
  split_ifs at h with h0
  · refine ⟨fun hne => absurd h0 hne, fun _ => ?_⟩
    split at h
    · cases h
    · rename_i product hp
      split at h
      · cases h
      · rename_i n hn
        cases h
        exact ⟨product, hp, hn⟩
  · cases h
    exact ⟨fun _ => rfl, fun h => absurd h h0⟩

/-- A Create that returns no error diagnostic sent a request, got an ID, waited
and ended with a Read that returned no error diagnostic. -/
theorem resourceDmsRabbitmqInstanceCreate_ok (env : Env) (d : ResourceData)
    (hok : (resourceDmsRabbitmqInstanceCreate env d).diags.HasError = false) :
    ∃ availableZones storageSpace instanceID,
      createStorageSpace env d = .ok storageSpace ∧
      env.Create { buildCreateOpts env d availableZones storageSpace with
        Password := d.password } = .ok instanceID ∧
      env.DmsV2Client = none ∧
      (resourceDmsRabbitmqInstanceCreate env d).d =
        (resourceDmsRabbitmqInstanceRead env (d.SetId instanceID)).d ∧
      (resourceDmsRabbitmqInstanceRead env (d.SetId instanceID)).diags.HasError = false := by
  unfold resourceDmsRabbitmqInstanceCreate at hok ⊢
  cases hc : env.DmsV2Client with
  | some err => simp [hc, Diagnostics.HasError, diagErrorf] at hok
  | none =>
    simp only [hc] at hok ⊢
    split at hok
    · simp [Diagnostics.HasError, diagFromErr] at hok
    · rename_i availableZones hz
      split at hok
      · rename_i diags hs
        rw [createStorageSpace_error env d diags hs] at hok
        cases hok
      · rename_i storageSpace hs
        split at hok
        · simp [Diagnostics.HasError, diagErrorf] at hok
        · rename_i instanceID hcreate
          split at hok
          · simp [Diagnostics.HasError, diagErrorf] at hok
          · rename_i hwait
            refine ⟨availableZones, storageSpace, instanceID, hs, hcreate, trivial, ?_, hok⟩
            simp only [hz, hs, hcreate, hwait]


/-- After a Read that returns no error diagnostic the resource data holds every
attribute write, and the tags. -/
theorem readInstance_data (env : Env) (d : ResourceData) (v : Instance)
    (hok : (readInstance env d v).diags.HasError = false) :
    ∃ tags, (readInstance env d v).d =
      { (readAttributes (env.GetRegion d) v
          (getAvailableZoneCodeByID env.availableZones v.AvailableZones).1).foldl
          (fun x s => s.2 x) (d.SetId v.InstanceID) with tags := tags } := by
  rw [readInstance_spec] at hok
  split_ifs at hok with h
  · simp only [List.append_eq_nil, List.filterMap_eq_nil_iff] at h
    have hsets := setAttributes_data env.setError (d.SetId v.InstanceID) _ h.1.2
    obtain ⟨tags, ht⟩ := (readTags_spec env
      (setAttributes env.setError (d.SetId v.InstanceID)
        (readAttributes (env.GetRegion d) v
          (getAvailableZoneCodeByID env.availableZones v.AvailableZones).1)).1
      (multierrorAppend (multierrorAppend []
        [(getAvailableZoneCodeByID env.availableZones v.AvailableZones).2])
        (setAttributes env.setError (d.SetId v.InstanceID)
          (readAttributes (env.GetRegion d) v
            (getAvailableZoneCodeByID env.availableZones v.AvailableZones).1)).2.1)).2.1
    refine ⟨tags, ?_⟩
    rw [← hsets, ← ht]
    unfold readInstance
    simp only []
    split <;> rfl
  · simp [Diagnostics.HasError, diagErrorf] at hok

/-- C8, refuted as stated: with a `storage_space` of 0, an API that returns
what every create request sent and a `common.GetEnterpriseProjectID` that
answers the configured value, Create succeeds and the state holds the storage
of the selected product, 100, not the configured 0. -/
theorem resourceDmsRabbitmqInstanceCreate_round_trip_counterexample :
    (∀ opts id, (echoEnv unsetStorageInstance).Create opts = .ok id →
      ∃ v, (echoEnv unsetStorageInstance).Get id = .ok v ∧ Echoes v opts) ∧
    (echoEnv unsetStorageInstance).GetEnterpriseProjectID unsetStorageData =
      unsetStorageData.enterprise_project_id ∧
    (resourceDmsRabbitmqInstanceCreate (echoEnv unsetStorageInstance)
      unsetStorageData).diags.HasError = false ∧
    unsetStorageData.storage_space = 0 ∧
    (resourceDmsRabbitmqInstanceCreate (echoEnv unsetStorageInstance)
      unsetStorageData).d.storage_space = 100 ∧
    (resourceDmsRabbitmqInstanceCreate (echoEnv unsetStorageInstance)
      unsetStorageData).d.storage_space ≠ unsetStorageData.storage_space := by
  refine ⟨?_, rfl, by decide, by decide, by decide, by decide⟩
  intro opts id h
  by_cases he : Echoes unsetStorageInstance opts
  · exact ⟨unsetStorageInstance, rfl, he⟩
  · simp [echoEnv, he] at h


/-- A Create that returns no error diagnostic sent one request, which is among
its effects, got an ID for it, and ended with a Read of that ID that returned no
error diagnostic. -/
theorem resourceDmsRabbitmqInstanceCreate_sent (env : Env) (d : ResourceData)
    (hok : (resourceDmsRabbitmqInstanceCreate env d).diags.HasError = false) :
    ∃ availableZones storageSpace instanceID,
      createStorageSpace env d = .ok storageSpace ∧
      Effect.ApiCreate { buildCreateOpts env d availableZones storageSpace with
        Password := d.password } ∈ (resourceDmsRabbitmqInstanceCreate env d).trace ∧
      env.Create { buildCreateOpts env d availableZones storageSpace with
        Password := d.password } = .ok instanceID ∧
      env.DmsV2Client = none ∧
      (resourceDmsRabbitmqInstanceCreate env d).d =
        (resourceDmsRabbitmqInstanceRead env (d.SetId instanceID)).d ∧
      (resourceDmsRabbitmqInstanceRead env (d.SetId instanceID)).diags.HasError = false := by
  unfold resourceDmsRabbitmqInstanceCreate at hok ⊢
  cases hc : env.DmsV2Client with
  | some err => simp [hc, Diagnostics.HasError, diagErrorf] at hok
  | none =>
    simp only [hc] at hok ⊢
    split at hok
    · simp [Diagnostics.HasError, diagFromErr] at hok
    · rename_i availableZones hz
      split at hok
      · rename_i diags hs
        rw [createStorageSpace_error env d diags hs] at hok
        cases hok
      · rename_i storageSpace hs
        split at hok
        · simp [Diagnostics.HasError, diagErrorf] at hok
        · rename_i instanceID hcreate
          split at hok
          · simp [Diagnostics.HasError, diagErrorf] at hok
          · rename_i hwait
            refine ⟨availableZones, storageSpace, instanceID, hs, ?_, hcreate, trivial, ?_, hok⟩
            · simp only [hz, hs, hcreate, hwait]
              simp
            · simp only [hz, hs, hcreate, hwait]

/-- Read never writes the attribute `password`. -/
theorem resourceDmsRabbitmqInstanceRead_password (env : Env) (d : ResourceData) :
    (resourceDmsRabbitmqInstanceRead env d).d.password = d.password := by
  unfold resourceDmsRabbitmqInstanceRead
  cases env.DmsV2Client with
  | some err => rfl
  | none =>
    cases env.Get d.Id with
    | fail v err =>
      simp only [CheckDeletedDiag]
      split <;> rfl
    | ok v =>
      have htags : ∀ x m, (readTags env x m).1.password = x.password := by
        intro x m
        obtain ⟨tags, h⟩ := (readTags_spec env x m).2.1
        rw [h]
      have hsets : (setAttributes env.setError (d.SetId v.InstanceID)
          (readAttributes (env.GetRegion d) v
            (getAvailableZoneCodeByID env.availableZones v.AvailableZones).1)).1.password =
          d.password := by
        rw [setAttributes_keeps (fun x => x.password)]
        · rfl
        · intro s hs _ x
          revert s
          simp [readAttributes]
      show (readInstance env d v).d.password = d.password
      unfold readInstance
      simp only []
      split <;> exact (htags _ _).trans hsets

/-- Create never changes the attribute `password`, whatever the API answers. -/
theorem resourceDmsRabbitmqInstanceCreate_password (env : Env) (d : ResourceData) :
    (resourceDmsRabbitmqInstanceCreate env d).d.password = d.password := by
  unfold resourceDmsRabbitmqInstanceCreate
  cases hc : env.DmsV2Client with
  | some err => rfl
  | none =>
    simp only []
    split
    · rfl
    · split
      · rfl
      · split
        · rfl
        · split
          · rfl
          · exact resourceDmsRabbitmqInstanceRead_password env _

/-- C8, amended: when `Get` answers, for the instance that Create created, the
values that the create request sent, and `common.GetEnterpriseProjectID`, which
is not among the sources, answers the configured `enterprise_project_id`, a
Create that returns no error diagnostic leaves in state the configured value of
`name`, `description`, `engine_version`, `storage_spec_code`, `access_user`,
`password`, `vpc_id`, `security_group_id`, `network_id`, `product_id`,
`maintain_begin`, `maintain_end`, `ssl_enable`, `public_ip_id` and
`enterprise_project_id`; `storage_space` holds the configured value when that is
not 0 and the parsed `Storage` of the selected product when it is 0. The
password is the configured one because Read never writes it. -/
theorem resourceDmsRabbitmqInstanceCreate_round_trip (env : Env) (d : ResourceData)
    (hecho : ∀ opts id,
      Effect.ApiCreate opts ∈ (resourceDmsRabbitmqInstanceCreate env d).trace →
      env.Create opts = .ok id → ∃ v, env.Get id = .ok v ∧ Echoes v opts)
    (hhelper : env.GetEnterpriseProjectID d = d.enterprise_project_id)
    (hok : (resourceDmsRabbitmqInstanceCreate env d).diags.HasError = false) :
    (resourceDmsRabbitmqInstanceCreate env d).d.name = d.name ∧
    (resourceDmsRabbitmqInstanceCreate env d).d.description = d.description ∧
    (resourceDmsRabbitmqInstanceCreate env d).d.engine_version = d.engine_version ∧
    (resourceDmsRabbitmqInstanceCreate env d).d.storage_spec_code = d.storage_spec_code ∧
    (resourceDmsRabbitmqInstanceCreate env d).d.access_user = d.access_user ∧
    (resourceDmsRabbitmqInstanceCreate env d).d.password = d.password ∧
    (resourceDmsRabbitmqInstanceCreate env d).d.vpc_id = d.vpc_id ∧
    (resourceDmsRabbitmqInstanceCreate env d).d.security_group_id = d.security_group_id ∧
    (resourceDmsRabbitmqInstanceCreate env d).d.network_id = d.network_id ∧
    (resourceDmsRabbitmqInstanceCreate env d).d.product_id = d.product_id ∧
    (resourceDmsRabbitmqInstanceCreate env d).d.maintain_begin = d.maintain_begin ∧
    (resourceDmsRabbitmqInstanceCreate env d).d.maintain_end = d.maintain_end ∧
    (resourceDmsRabbitmqInstanceCreate env d).d.ssl_enable = d.ssl_enable ∧
    (resourceDmsRabbitmqInstanceCreate env d).d.public_ip_id = d.public_ip_id ∧
    (resourceDmsRabbitmqInstanceCreate env d).d.enterprise_project_id =
      d.enterprise_project_id ∧
    (d.storage_space ≠ 0 →
      (resourceDmsRabbitmqInstanceCreate env d).d.storage_space = d.storage_space) ∧
    (d.storage_space = 0 → ∃ product,
      getRabbitMQProductDetail env.getProducts d.product_id d.engine_version = .ok product ∧
      ParseInt product.Storage 32 =
        .ok (resourceDmsRabbitmqInstanceCreate env d).d.storage_space) := by
  obtain ⟨availableZones, storageSpace, instanceID, hstorage, hsent, hcreate, hclient, hd,
    hread⟩ := resourceDmsRabbitmqInstanceCreate_sent env d hok
  obtain ⟨v, hget, he⟩ := hecho _ _ hsent hcreate
  have hr : resourceDmsRabbitmqInstanceRead env (d.SetId instanceID) =
      ⟨(readInstance env (d.SetId instanceID) v).d, (readInstance env (d.SetId instanceID) v).diags,
        .ApiGet instanceID :: (readInstance env (d.SetId instanceID) v).trace⟩ := by
    have hget2 : env.Get (d.SetId instanceID).Id = .ok v := hget
    simp only [resourceDmsRabbitmqInstanceRead, hclient, hget2]
    rfl
  rw [hr] at hd hread
  obtain ⟨tags, hdata⟩ := readInstance_data env (d.SetId instanceID) v hread
  rw [hd, hdata]
  obtain ⟨hne, hzero⟩ := createStorageSpace_ok env d storageSpace hstorage
  obtain ⟨e1, e2, e3, e4, e5, e6, e7, e8, e9, e10, e11, e12, e13, e14, e15⟩ := he
  simp only [readAttributes, List.foldl_cons, List.foldl_nil, ResourceData.SetId]
  have hpub : (buildCreateOpts env d availableZones storageSpace).PublicIpID = d.public_ip_id := by
    unfold buildCreateOpts
    by_cases hp : d.public_ip_id = "" <;> by_cases ht : d.tags.length > 0 <;> simp [hp, ht]
  have hrest : (buildCreateOpts env d availableZones storageSpace).Name = d.name ∧
      (buildCreateOpts env d availableZones storageSpace).Description = d.description ∧
      (buildCreateOpts env d availableZones storageSpace).EngineVersion = d.engine_version ∧
      (buildCreateOpts env d availableZones storageSpace).StorageSpace = storageSpace ∧
      (buildCreateOpts env d availableZones storageSpace).StorageSpecCode =
        d.storage_spec_code ∧
      (buildCreateOpts env d availableZones storageSpace).AccessUser = d.access_user ∧
      (buildCreateOpts env d availableZones storageSpace).VPCID = d.vpc_id ∧
      (buildCreateOpts env d availableZones storageSpace).SecurityGroupID =
        d.security_group_id ∧
      (buildCreateOpts env d availableZones storageSpace).SubnetID = d.network_id ∧
      (buildCreateOpts env d availableZones storageSpace).ProductID = d.product_id ∧
      (buildCreateOpts env d availableZones storageSpace).MaintainBegin = d.maintain_begin ∧
      (buildCreateOpts env d availableZones storageSpace).MaintainEnd = d.maintain_end ∧
      (buildCreateOpts env d availableZones storageSpace).SslEnable = d.ssl_enable ∧
      (buildCreateOpts env d availableZones storageSpace).EnterpriseProjectID =
        env.GetEnterpriseProjectID d := by
    unfold buildCreateOpts
    by_cases hp : d.public_ip_id = "" <;> by_cases ht : d.tags.length > 0 <;> simp [hp, ht]
  obtain ⟨b1, b2, b3, b4, b5, b6, b7, b8, b9, b10, b11, b12, b13, b15⟩ := hrest
  simp only [] at e1 e2 e3 e4 e5 e6 e7 e8 e9 e10 e11 e12 e13 e14 e15
  refine ⟨e1.trans b1, e2.trans b2, e3.trans b3, e5.trans b5, e6.trans b6, trivial, e7.trans b7,
    e8.trans b8, e9.trans b9, e10.trans b10, e11.trans b11, e12.trans b12, e13.trans b13,
    e14.trans hpub, (e15.trans b15).trans hhelper, ?_, ?_⟩
  · intro h
    exact (e4.trans b4).trans (hne h)
  · intro h
    obtain ⟨product, hp, hparse⟩ := hzero h
    exact ⟨product, hp, by rw [e4.trans b4]; exact hparse⟩

/-- Witness of the amended C8: the sample configuration against an API that
holds the sample instance. -/
theorem resourceDmsRabbitmqInstanceCreate_round_trip_witness :
    (resourceDmsRabbitmqInstanceCreate (echoEnv sampleInstance) sampleData).diags.HasError =
      false ∧
    (resourceDmsRabbitmqInstanceCreate (echoEnv sampleInstance) sampleData).d.name =
      sampleData.name ∧
    (resourceDmsRabbitmqInstanceCreate (echoEnv sampleInstance) sampleData).d.security_group_id =
      sampleData.security_group_id ∧
    (resourceDmsRabbitmqInstanceCreate (echoEnv sampleInstance) sampleData).d.enterprise_project_id =
      sampleData.enterprise_project_id ∧
    (resourceDmsRabbitmqInstanceCreate (echoEnv sampleInstance) sampleData).d.storage_space =
      200 :=
  have h := resourceDmsRabbitmqInstanceCreate_round_trip (echoEnv sampleInstance) sampleData
    (fun opts id _ hc => by
      by_cases he : Echoes sampleInstance opts
      · exact ⟨sampleInstance, rfl, he⟩
      · simp [echoEnv, he] at hc)
    rfl (by decide)
  ⟨by decide, h.1, h.2.2.2.2.2.2.2.1, h.2.2.2.2.2.2.2.2.2.2.2.2.2.2.1,
    h.2.2.2.2.2.2.2.2.2.2.2.2.2.2.2.1 (by decide)⟩

end Dms

namespace Images

open Dms (GoError)

/-! ## `net/url` on plain URLs -/

/-- Cutting at a byte that is not there leaves the string whole. -/
theorem Cut_of_not_mem (s : List Char) (sep : Char) (h : sep ∉ s) :
    Cut s sep = (s, [], false) := by
  induction s with
  | nil => rfl
  | cons c rest ih =>
    have hc : c ≠ sep := fun e => h (e ▸ List.mem_cons_self _ _)
    have hr : sep ∉ rest := fun m => h (List.mem_cons_of_mem _ m)
    simp [Cut, hc, ih hr]

/-- Cutting at the first separator: what is before it has none. -/
theorem Cut_append_sep (a b : List Char) (sep : Char) (h : sep ∉ a) :
    Cut (a ++ sep :: b) sep = (a, b, true) := by
  induction a with
  | nil => simp [Cut]
  | cons c rest ih =>
    have hc : c ≠ sep := fun e => h (e ▸ List.mem_cons_self _ _)
    have hr : sep ∉ rest := fun m => h (List.mem_cons_of_mem _ m)
    simp [Cut, hc, ih hr]

/-- There is no last separator in a string without one. -/
theorem CutLast_of_not_mem (s : List Char) (sep : Char) (h : sep ∉ s) :
    CutLast s sep = none := by
  unfold CutLast
  rw [Cut_of_not_mem s.reverse sep (by simpa using h)]
  simp

/-- Escaping changes nothing in a string whose bytes need no escape. -/
theorem escape_of_plain (s : List Char) (mode : encoding)
    (h : ∀ c ∈ s, shouldEscape c mode = false) : escape s mode = s := by
  induction s with
  | nil => rfl
  | cons c rest ih =>
    have hc := h c (List.mem_cons_self _ _)
    have hr := ih (fun x hx => h x (List.mem_cons_of_mem _ hx))
    unfold escape at hr ⊢
    simp [List.flatMap_cons, hc, hr]

/-- Unescaping changes nothing in a string without "%" and "+" whose bytes need no
escape. -/
theorem unescape_of_plain (s : List Char) (mode : encoding)
    (h : ∀ c ∈ s, c ≠ '%' ∧ c ≠ '+' ∧ shouldEscape c mode = false) :
    unescape s mode = .ok s := by
  induction s with
  | nil => rfl
  | cons c rest ih =>
    obtain ⟨h1, h2, h3⟩ := h c (List.mem_cons_self _ _)
    have hr := ih (fun x hx => h x (List.mem_cons_of_mem _ hx))
    have h4 : mode = .encodeHost ∨ mode = .encodeZone → shouldEscape c .encodeHost = false := by
      rintro (rfl | rfl)
      · exact h3
      · rw [← h3]
        simp [shouldEscape]
    unfold unescape
    by_cases hm : mode = .encodeHost ∨ mode = .encodeZone
    · simp [h1, h2, h4 hm, hr]
    · simp [h1, h2, hm, hr]

/-- The scheme loop reads letters up to the colon. -/
theorem getSchemeLoop_letters (rawURL seen scheme rest : List Char)
    (hletters : ∀ c ∈ scheme, ('a' ≤ c ∧ c ≤ 'z') ∨ ('A' ≤ c ∧ c ≤ 'Z'))
    (hne : seen ++ scheme ≠ []) :
    getSchemeLoop rawURL seen (scheme ++ ':' :: rest) = .ok (seen ++ scheme, rest) := by
  induction scheme generalizing seen with
  | nil =>
    have hs : seen ≠ [] := by simpa using hne
    simp [getSchemeLoop, hs]
  | cons c more ih =>
    have hc := hletters c (List.mem_cons_self _ _)
    have := ih (seen ++ [c]) (fun x hx => hletters x (List.mem_cons_of_mem _ hx)) (by simp)
    simp only [List.cons_append, getSchemeLoop, hc, if_true]
    simpa using this

/-- What the model needs of a scheme byte. -/
theorem schemeBytes_facts : ∀ c ∈ schemeBytes,
    (('a' ≤ c ∧ c ≤ 'z') ∨ ('A' ≤ c ∧ c ≤ 'Z')) ∧ c.toLower = c ∧ c ∈ pathBytes := by
  decide

/-- What the model needs of a host byte. -/
theorem hostBytes_facts : ∀ c ∈ hostBytes,
    c ∈ pathBytes ∧ c ≠ '/' ∧ c ≠ '[' ∧ shouldEscape c .encodeHost = false := by
  decide

/-- What the model needs of a path byte. -/
theorem pathBytes_facts : ∀ c ∈ pathBytes,
    c ≠ '%' ∧ c ≠ '+' ∧ c ≠ '?' ∧ c ≠ '#' ∧ c ≠ ':' ∧ c ≠ '@' ∧
    shouldEscape c .encodePath = false ∧ ¬ (c.toNat < 32 ∨ c.toNat = 127) := by
  decide

/-- A plain URL `scheme://host/tail` is parsed into its scheme, its host and its
path, and nothing else. -/
theorem Parse_plain (scheme host tail : List Char)
    (hscheme : scheme ≠ []) (hschemeBytes : ∀ c ∈ scheme, c ∈ schemeBytes)
    (hhost : host ≠ []) (hhostBytes : ∀ c ∈ host, c ∈ hostBytes)
    (htail : ∀ c ∈ tail, c ∈ pathBytes) :
    Parse (String.mk (scheme ++ ':' :: '/' :: '/' :: (host ++ '/' :: tail))) =
      .ok { emptyURL with
        Scheme := String.mk scheme
        Host := String.mk host
        Path := String.mk ('/' :: tail) } := by
  -- every byte of the URL is a path byte or a colon
  have hall : ∀ c ∈ scheme ++ ':' :: '/' :: '/' :: (host ++ '/' :: tail),
      c ∈ pathBytes ∨ c = ':' := by
    intro c hc
    simp only [List.mem_append, List.mem_cons] at hc
    rcases hc with h | h | h | h | h | h | h
    · exact Or.inl (schemeBytes_facts c (hschemeBytes c h)).2.2
    · exact Or.inr h
    · exact Or.inl (h ▸ by decide)
    · exact Or.inl (h ▸ by decide)
    · exact Or.inl (hostBytes_facts c (hhostBytes c h)).1
    · exact Or.inl (h ▸ by decide)
    · exact Or.inl (htail c h)
  have hafter : ∀ c ∈ '/' :: '/' :: (host ++ '/' :: tail), c ∈ pathBytes := by
    intro c hc
    simp only [List.mem_append, List.mem_cons] at hc
    rcases hc with h | h | h | h | h
    · exact h ▸ by decide
    · exact h ▸ by decide
    · exact (hostBytes_facts c (hhostBytes c h)).1
    · exact h ▸ by decide
    · exact htail c h
  have hnohash : '#' ∉ scheme ++ ':' :: '/' :: '/' :: (host ++ '/' :: tail) := by
    intro hm
    rcases hall _ hm with h | h
    · exact (pathBytes_facts _ h).2.2.2.1 rfl
    · exact absurd h (by decide)
  have hctl : stringContainsCTLByte (scheme ++ ':' :: '/' :: '/' :: (host ++ '/' :: tail)) =
      false := by
    unfold stringContainsCTLByte
    rw [List.any_eq_false]
    intro c hc
    rcases hall c hc with h | h
    · simpa using (pathBytes_facts c h).2.2.2.2.2.2.2
    · rw [h]; decide
  have hstar : scheme ++ ':' :: '/' :: '/' :: (host ++ '/' :: tail) ≠ ['*'] := by
    intro h
    have := congrArg List.length h
    simp at this
    omega
  have hget : getScheme (scheme ++ ':' :: '/' :: '/' :: (host ++ '/' :: tail)) =
      .ok (scheme, '/' :: '/' :: (host ++ '/' :: tail)) := by
    unfold getScheme
    have := getSchemeLoop_letters (scheme ++ ':' :: '/' :: '/' :: (host ++ '/' :: tail)) []
      scheme ('/' :: '/' :: (host ++ '/' :: tail))
      (fun c hc => (schemeBytes_facts c (hschemeBytes c hc)).1) (by simpa using hscheme)
    simpa using this
  have hlower : scheme.map Char.toLower = scheme := by
    conv_rhs => rw [← List.map_id scheme]
    apply List.map_congr_left
    intro c hc
    exact (schemeBytes_facts c (hschemeBytes c hc)).2.1
  have hnoq : '?' ∉ '/' :: '/' :: (host ++ '/' :: tail) :=
    fun hm => (pathBytes_facts _ (hafter _ hm)).2.2.1 rfl
  have hforce : decide ((('/' :: '/' :: (host ++ '/' :: tail)).getLast? = some '?') ∧
      ('/' :: '/' :: (host ++ '/' :: tail)).count '?' = 1) = false := by
    rw [decide_eq_false_iff_not]
    intro h
    exact hnoq (List.mem_of_getLast?_eq_some h.1)
  have hcutq := Cut_of_not_mem _ '?' hnoq
  have hnoslash : '/' ∉ host := fun hm => (hostBytes_facts _ (hhostBytes _ hm)).2.1 rfl
  have hcuts := Cut_append_sep host tail '/' hnoslash
  have hschemeStr : String.mk scheme ≠ "" := by
    intro h
    exact hscheme (congrArg String.data h)
  -- the authority
  have hnoat : '@' ∉ host := fun hm =>
    (pathBytes_facts _ (hostBytes_facts _ (hhostBytes _ hm)).1).2.2.2.2.2.1 rfl
  have hnocolon : ':' ∉ host := fun hm =>
    (pathBytes_facts _ (hostBytes_facts _ (hhostBytes _ hm)).1).2.2.2.2.1 rfl
  have hbracket : ['['].isPrefixOf host = false := by
    cases host with
    | nil => exact absurd rfl hhost
    | cons c rest =>
      have hc : c ≠ '[' := (hostBytes_facts c (hhostBytes c (List.mem_cons_self _ _))).2.2.1
      simp [List.isPrefixOf, Ne.symm hc]
  have hunhost : unescape host .encodeHost = .ok host := by
    apply unescape_of_plain
    intro c hc
    have hp := pathBytes_facts c (hostBytes_facts c (hhostBytes c hc)).1
    exact ⟨hp.1, hp.2.1, (hostBytes_facts c (hhostBytes c hc)).2.2.2⟩
  have hparseHost : parseHost host = .ok host := by
    unfold parseHost
    simp [hbracket, CutLast_of_not_mem host ':' hnocolon, hunhost]
  have hauth : parseAuthority host = .ok (none, host) := by
    unfold parseAuthority
    simp [CutLast_of_not_mem host '@' hnoat, hparseHost]
  -- the path
  have hpathBytes : ∀ c ∈ '/' :: tail, c ∈ pathBytes := by
    intro c hc
    rcases List.mem_cons.mp hc with h | h
    · exact h ▸ by decide
    · exact htail c h
  have hunpath : unescape ('/' :: tail) .encodePath = .ok ('/' :: tail) := by
    apply unescape_of_plain
    intro c hc
    have hp := pathBytes_facts c (hpathBytes c hc)
    exact ⟨hp.1, hp.2.1, hp.2.2.2.2.2.2.1⟩
  have hescpath : escape ('/' :: tail) .encodePath = '/' :: tail :=
    escape_of_plain _ _ (fun c hc => (pathBytes_facts c (hpathBytes c hc)).2.2.2.2.2.2.1)
  have hparse : parse (scheme ++ ':' :: '/' :: '/' :: (host ++ '/' :: tail)) =
      .ok { emptyURL with
        Scheme := String.mk scheme
        Host := String.mk host
        Path := String.mk ('/' :: tail) } := by
    unfold parse
    simp only [hctl, hstar, hget, hlower, hforce, hcutq, Bool.false_eq_true, if_false]
    simp [hschemeStr, List.isPrefixOf, hcuts, hauth, setPath, hunpath, hescpath, emptyURL]
  unfold Parse
  simp only [String.toList, Cut_of_not_mem _ '#' hnohash, hparse]
  simp

/-- The parts of a plain URL are written back as `scheme://host/tail`. -/
theorem stringBeforeQuery_plain (scheme host tail : List Char)
    (hscheme : scheme ≠ []) (hhost : host ≠ []) (hhostBytes : ∀ c ∈ host, c ∈ hostBytes)
    (htail : ∀ c ∈ tail, c ∈ pathBytes) :
    stringBeforeQuery { emptyURL with
        Scheme := String.mk scheme
        Host := String.mk host
        Path := String.mk ('/' :: tail) } =
      String.mk (scheme ++ ':' :: '/' :: '/' :: (host ++ '/' :: tail)) := by
  have hschemeStr : String.mk scheme ≠ "" := fun h => hscheme (congrArg String.data h)
  have hhostStr : String.mk host ≠ "" := fun h => hhost (congrArg String.data h)
  have hpathBytes : ∀ c ∈ '/' :: tail, c ∈ pathBytes := by
    intro c hc
    rcases List.mem_cons.mp hc with h | h
    · exact h ▸ by decide
    · exact htail c h
  have heschost : escape host .encodeHost = host :=
    escape_of_plain _ _ (fun c hc => (hostBytes_facts c (hhostBytes c hc)).2.2.2)
  have hescpath : escape ('/' :: tail) .encodePath = '/' :: tail :=
    escape_of_plain _ _ (fun c hc => (pathBytes_facts c (hpathBytes c hc)).2.2.2.2.2.2.1)
  have hstar : String.mk ('/' :: tail) ≠ "*" := by
    intro h
    have := congrArg String.data h
    simp at this
  have hpath : EscapedPath { emptyURL with
      Scheme := String.mk scheme
      Host := String.mk host
      Path := String.mk ('/' :: tail) } = String.mk ('/' :: tail) := by
    unfold EscapedPath
    simp [emptyURL, hstar, hescpath]
  have hbuf : String.mk scheme ++ ":" ++ "//" ++ String.mk host ≠ "" := by
    intro h
    have := congrArg String.data h
    simp [String.data_append] at this
  unfold stringBeforeQuery
  rw [hpath]
  simp only [emptyURL, ne_eq, hschemeStr, not_false_eq_true, if_true, hhostStr, true_or, or_true,
    String.toList, heschost]
  apply String.ext
  simp [String.data_append, hbuf]

/-! ## The next-page URL: the claim -/

/-- The normalized base endpoint ends in "/". -/
theorem NormalizeURL_ends_in_slash (url : String) :
    (NormalizeURL url).toList.getLast? = some '/' := by
  unfold NormalizeURL
  split_ifs with h
  · exact h
  · simp [String.toList, String.data_append]

/-- The string form of a URL whose query was replaced: what is written before
the query does not change, the new query follows a "?" when it is not empty or
the URL forces a query, and the fragment comes last. -/
theorem URLString_RawQuery (u : URL) (query : String) :
    URLString { u with RawQuery := query } =
      stringBeforeQuery u ++
        (if u.ForceQuery ∨ query ≠ "" then "?" ++ query else "") ++
        (if u.Fragment ≠ "" then "#" ++ EscapedFragment u else "") := by
  rfl

/-- C6, refuted as stated, on both halves. The base endpoint of `http://h/v2/`
is extracted and the next link `/a%25` parses, yet `nextPageURL` returns the
empty string and an error: the path of the link, decoded to `/a%`, does not
parse again behind the base endpoint. And for the next link `/a%3Fb?x=1`, whose
path is `/a?b`, it returns `http://h/a?x=1`, which is not the base endpoint
followed by that path, decoded or as written, and the query. -/
theorem nextPageURL_counterexample :
    sampleBaseEndpoint "http://h/v2/" = .ok "http://h/" ∧
    (Parse "/a%25").toOption.map (fun u => u.Path) = some "/a%" ∧
    nextPageURL sampleBaseEndpoint "http://h/v2/" "/a%25" =
      ("", some (.other "parse \"http://h/a%\": invalid URL escape \"%\"")) ∧
    (Parse "/a%3Fb?x=1").toOption.map (fun u => (u.Path, u.RawQuery)) = some ("/a?b", "x=1") ∧
    nextPageURL sampleBaseEndpoint "http://h/v2/" "/a%3Fb?x=1" = ("http://h/a?x=1", none) ∧
    "http://h/a?x=1" ≠ NormalizeURL "http://h/" ++ TrimPrefix "/a?b" ++ "?" ++ "x=1" ∧
    "http://h/a?x=1" ≠ NormalizeURL "http://h/" ++ TrimPrefix "/a%3Fb" ++ "?" ++ "x=1" := by
  refine ⟨rfl, by decide, by decide, by decide, by decide, by decide, by decide⟩

/-- C6, amended: a failure of the base endpoint extraction or of the parse of
the requested next link is returned with the empty string. Otherwise the
function parses the normalized base endpoint, which ends in "/", followed by the
path of the link without one leading "/"; a failure of that parse is returned
with the empty string too. When it succeeds the result, with a nil error, is the
string form of the parsed URL with the raw query of the link as its query: what
`net/url` writes for the parsed URL before the query, then "?" and exactly the
query of the link (left out when that is empty and the parsed URL forces no
query), then the fragment of the parsed URL if it has one. So when `net/url`
writes the parsed URL as the string that was parsed, without forced query or
fragment, the result is the normalized base endpoint followed by the trimmed
path and the query of the link. That is so for every plain endpoint and link:
a normalized base endpoint `scheme://host/dir` with a lower-case scheme, a host
name of letters, digits, "." and "-", and a link path of unreserved bytes and
"/". -/
theorem nextPageURL_spec (BaseEndpoint : String → Except GoError String)
    (serviceURL requestedNext : String) :
    (∀ err, BaseEndpoint serviceURL = .error err →
      nextPageURL BaseEndpoint serviceURL requestedNext = ("", some err)) ∧
    (∀ base err, BaseEndpoint serviceURL = .ok base →
      Parse requestedNext = .error err →
      nextPageURL BaseEndpoint serviceURL requestedNext = ("", some err)) ∧
    (∀ base requestedNextURL, BaseEndpoint serviceURL = .ok base →
      Parse requestedNext = .ok requestedNextURL →
      (NormalizeURL base).toList.getLast? = some '/' ∧
      (TrimPrefix requestedNextURL.Path).toList =
        (match requestedNextURL.Path.toList with
          | '/' :: rest => rest
          | cs => cs) ∧
      (∀ err, Parse (NormalizeURL base ++ TrimPrefix requestedNextURL.Path) = .error err →
        nextPageURL BaseEndpoint serviceURL requestedNext = ("", some err)) ∧
      (∀ nextURL, Parse (NormalizeURL base ++ TrimPrefix requestedNextURL.Path) = .ok nextURL →
        nextPageURL BaseEndpoint serviceURL requestedNext =
          (URLString { nextURL with RawQuery := requestedNextURL.RawQuery }, none) ∧
        nextPageURL BaseEndpoint serviceURL requestedNext =
          (stringBeforeQuery nextURL ++
            (if nextURL.ForceQuery ∨ requestedNextURL.RawQuery ≠ "" then
              "?" ++ requestedNextURL.RawQuery else "") ++
            (if nextURL.Fragment ≠ "" then "#" ++ EscapedFragment nextURL else ""), none) ∧
        (stringBeforeQuery nextURL = NormalizeURL base ++ TrimPrefix requestedNextURL.Path →
          nextURL.ForceQuery = false → nextURL.Fragment = "" →
          nextPageURL BaseEndpoint serviceURL requestedNext =
            (NormalizeURL base ++ TrimPrefix requestedNextURL.Path ++
              (if requestedNextURL.RawQuery ≠ "" then "?" ++ requestedNextURL.RawQuery
                else ""), none)))) ∧
    (∀ base requestedNextURL scheme host dir, BaseEndpoint serviceURL = .ok base →
      Parse requestedNext = .ok requestedNextURL →
      (NormalizeURL base).toList = scheme ++ ':' :: '/' :: '/' :: (host ++ '/' :: dir) →
      scheme ≠ [] → (∀ c ∈ scheme, c ∈ schemeBytes) →
      host ≠ [] → (∀ c ∈ host, c ∈ hostBytes) →
      (∀ c ∈ dir, c ∈ pathBytes) →
      (∀ c ∈ (TrimPrefix requestedNextURL.Path).toList, c ∈ pathBytes) →
      nextPageURL BaseEndpoint serviceURL requestedNext =
        (NormalizeURL base ++ TrimPrefix requestedNextURL.Path ++
          (if requestedNextURL.RawQuery ≠ "" then "?" ++ requestedNextURL.RawQuery
            else ""), none)) := by
  have hthird : ∀ base requestedNextURL nextURL, BaseEndpoint serviceURL = .ok base →
      Parse requestedNext = .ok requestedNextURL →
      Parse (NormalizeURL base ++ TrimPrefix requestedNextURL.Path) = .ok nextURL →
      nextPageURL BaseEndpoint serviceURL requestedNext =
        (URLString { nextURL with RawQuery := requestedNextURL.RawQuery }, none) := by
    intro base requestedNextURL nextURL hbase hparse hnext
    simp [nextPageURL, hbase, hparse, hnext]
  refine ⟨?_, ?_, ?_, ?_⟩
  rotate_left 3
  · intro base requestedNextURL scheme host dir hbase hparse hform hscheme hschemeBytes hhost
      hhostBytes hdir hlink
    have hnextPath : NormalizeURL base ++ TrimPrefix requestedNextURL.Path =
        String.mk (scheme ++ ':' :: '/' :: '/' ::
          (host ++ '/' :: (dir ++ (TrimPrefix requestedNextURL.Path).toList))) := by
      apply String.ext
      have hform2 : (NormalizeURL base).data =
          scheme ++ ':' :: '/' :: '/' :: (host ++ '/' :: dir) := hform
      simp [String.data_append, hform2, String.toList]
    have htail : ∀ c ∈ dir ++ (TrimPrefix requestedNextURL.Path).toList, c ∈ pathBytes := by
      intro c hc
      rcases List.mem_append.mp hc with h | h
      · exact hdir c h
      · exact hlink c h
    have hnext := Parse_plain scheme host _ hscheme hschemeBytes hhost hhostBytes htail
    rw [← hnextPath] at hnext
    rw [hthird base requestedNextURL _ hbase hparse hnext, URLString_RawQuery,
      stringBeforeQuery_plain scheme host _ hscheme hhost hhostBytes htail, ← hnextPath]
    simp [emptyURL]
  · intro err hbase
    simp [nextPageURL, hbase]
  · intro base err hbase hparse
    simp [nextPageURL, hbase, hparse]
  · intro base requestedNextURL hbase hparse
    refine ⟨NormalizeURL_ends_in_slash base, ?_, ?_, ?_⟩
    · unfold TrimPrefix
      split <;> simp_all
    · intro err hnext
      simp [nextPageURL, hbase, hparse, hnext]
    · intro nextURL hnext
      have hresult : nextPageURL BaseEndpoint serviceURL requestedNext =
          (URLString { nextURL with RawQuery := requestedNextURL.RawQuery }, none) := by
        simp [nextPageURL, hbase, hparse, hnext]
      refine ⟨hresult, ?_, ?_⟩
      · rw [hresult, URLString_RawQuery]
      · intro hwritten hforce hfragment
        rw [hresult, URLString_RawQuery, hwritten, hforce, hfragment]
        simp

/-- Witness of the amended C6: the next link `/v2/images?marker=m1` behind the
plain base endpoint `http://h/`. -/
theorem nextPageURL_spec_witness :
    sampleBaseEndpoint "http://h/v2/" = .ok "http://h/" ∧
    nextPageURL sampleBaseEndpoint "http://h/v2/" "/v2/images?marker=m1" =
      ("http://h/" ++ "v2/images" ++ "?marker=m1", none) :=
  ⟨rfl,
    (nextPageURL_spec sampleBaseEndpoint "http://h/v2/" "/v2/images?marker=m1").2.2.2 "http://h/"
      { emptyURL with Path := "/v2/images", RawQuery := "marker=m1" }
      "http".toList "h".toList [] rfl rfl rfl (by decide) (by decide) (by decide) (by decide)
      (by decide) (by decide)⟩

end Images

namespace Apig

/-! ## The import ID of a group -/

/-- C7: `testAccGroupImportStateFunc` returns the ID `<instance_id>/<id>` with a
nil error when the resource `huaweicloud_apig_group.test` is in the root module
with a non-empty `instance_id` attribute and a non-empty ID; in every other case
it returns the empty string and an error; so the error is nil exactly in the
first case. -/
theorem testAccGroupImportStateFunc_spec (s : State) :
    (∀ rs, s.Resources "huaweicloud_apig_group.test" = some rs →
      index rs.Primary.Attributes "instance_id" ≠ "" → rs.Primary.ID ≠ "" →
      testAccGroupImportStateFunc s =
        (index rs.Primary.Attributes "instance_id" ++ "/" ++ rs.Primary.ID, none)) ∧
    ((¬ ∃ rs, s.Resources "huaweicloud_apig_group.test" = some rs ∧
        index rs.Primary.Attributes "instance_id" ≠ "" ∧ rs.Primary.ID ≠ "") →
      (testAccGroupImportStateFunc s).1 = "" ∧ (testAccGroupImportStateFunc s).2 ≠ none) ∧
    ((testAccGroupImportStateFunc s).2 = none ↔
      ∃ rs, s.Resources "huaweicloud_apig_group.test" = some rs ∧
        index rs.Primary.Attributes "instance_id" ≠ "" ∧ rs.Primary.ID ≠ "") := by
  unfold testAccGroupImportStateFunc
  cases h : s.Resources "huaweicloud_apig_group.test" with
  | none => simp [h]
  | some rs =>
    by_cases h1 : index rs.Primary.Attributes "instance_id" = "" <;>
      by_cases h2 : rs.Primary.ID = "" <;> simp [h, h1, h2]

/-- C7 on a concrete state: the group `g-1` of the instance `inst-1` is imported
as `inst-1/g-1`. -/
theorem testAccGroupImportStateFunc_sample :
    testAccGroupImportStateFunc sampleState = ("inst-1/g-1", none) :=
  (testAccGroupImportStateFunc_spec sampleState).1
    ⟨⟨"g-1", fun key => if key = "instance_id" then some "inst-1" else none⟩⟩ rfl
    (by decide) (by decide)

end Apig

namespace Dms

/-! ## Read: the management address and its legacy alias -/

/-- C11: after a Read that got the instance from the API and returned no error
diagnostic, the attribute `manegement_connect_address`, kept for its old
spelling, and `management_connect_address` both hold the
`ManagementConnectAddress` the API returned. -/
theorem resourceDmsRabbitmqInstanceRead_management_alias (env : Env) (d : ResourceData)
    (v : Instance) (hclient : env.DmsV2Client = none) (hget : env.Get d.Id = .ok v)
    (hok : (resourceDmsRabbitmqInstanceRead env d).diags.HasError = false) :
    (resourceDmsRabbitmqInstanceRead env d).d.manegement_connect_address =
      v.ManagementConnectAddress ∧
    (resourceDmsRabbitmqInstanceRead env d).d.management_connect_address =
      v.ManagementConnectAddress ∧
    (resourceDmsRabbitmqInstanceRead env d).d.manegement_connect_address =
      (resourceDmsRabbitmqInstanceRead env d).d.management_connect_address := by
  have hr : resourceDmsRabbitmqInstanceRead env d =
      ⟨(readInstance env d v).d, (readInstance env d v).diags,
        .ApiGet d.Id :: (readInstance env d v).trace⟩ := by
    simp [resourceDmsRabbitmqInstanceRead, hclient, hget]
  rw [hr] at hok ⊢
  obtain ⟨tags, hdata⟩ := readInstance_data env d v hok
  simp only [hdata, readAttributes, List.foldl_cons, List.foldl_nil, ResourceData.SetId,
    and_self]

/-- Witness of C11: a Read of the sample instance. -/
theorem resourceDmsRabbitmqInstanceRead_management_alias_witness :
    (resourceDmsRabbitmqInstanceRead sampleEnv (sampleData.SetId "i-1")).d.manegement_connect_address =
      "https://192.168.0.10:15672" ∧
    (resourceDmsRabbitmqInstanceRead sampleEnv (sampleData.SetId "i-1")).d.management_connect_address =
      "https://192.168.0.10:15672" :=
  have h := resourceDmsRabbitmqInstanceRead_management_alias sampleEnv (sampleData.SetId "i-1")
    sampleInstance rfl rfl (by decide)
  ⟨h.1, h.2.1⟩


/-! ## The product lookup -/

/-- The lookup returns the first listed product with the requested ID. -/
theorem getRabbitMQProductDetail_eq_find (productRsp : GetResponse)
    (productID engineVersion : String) :
    getRabbitMQProductDetail (.ok productRsp) productID engineVersion =
      match (listedProducts productRsp engineVersion).find?
          (fun product => decide (product.ProductID = productID)) with
      | some product => .ok product
      | none =>
        .error (.other ("can not found product detail base on product_id: " ++ productID)) := by
  have hdetail : ∀ (vName : String) (detail : Detail),
      matchDetail vName productID detail =
        (if vName = "single" then [detailProduct detail] else detail.ProductInfos).find?
          (fun product => decide (product.ProductID = productID)) := by
    intro vName detail
    unfold matchDetail
    by_cases hn : vName = "single"
    · by_cases hp : detail.ProductID = productID <;>
        simp [hn, hp, detailProduct, List.find?_cons]
    · simp [hn]
  have hfind : productRsp.Hourly.findSome? (fun ps =>
        if ps.Version ≠ engineVersion then none
        else ps.Values.findSome? (fun v => v.Details.findSome? (matchDetail v.Name productID))) =
      (listedProducts productRsp engineVersion).find?
        (fun product => decide (product.ProductID = productID)) := by
    unfold listedProducts
    rw [List.find?_flatMap]
    congr 1
    funext ps
    by_cases hv : ps.Version = engineVersion
    · simp only [hv, ne_eq, not_true_eq_false, if_false, if_true, List.find?_flatMap]
      congr 1
      funext v
      congr 1
      funext detail
      exact hdetail v.Name detail
    · simp [hv]
  unfold getRabbitMQProductDetail
  simp only [hfind]


/-- A listing offers a product with the requested ID exactly when an hourly
entry of the engine version has, under a value named "single", a detail with
that ID or, under another value, a detail with a `ProductInfos` element with
that ID. -/
theorem listedProducts_offers (productRsp : GetResponse) (productID engineVersion : String) :
    (∃ product ∈ listedProducts productRsp engineVersion, product.ProductID = productID) ↔
      ∃ ps ∈ productRsp.Hourly, ps.Version = engineVersion ∧
        ∃ v ∈ ps.Values, ∃ detail ∈ v.Details,
          (v.Name = "single" ∧ detail.ProductID = productID) ∨
          (v.Name ≠ "single" ∧ ∃ product ∈ detail.ProductInfos,
            product.ProductID = productID) := by
  constructor
  · rintro ⟨product, hmem, hid⟩
    unfold listedProducts at hmem
    obtain ⟨ps, hps, hmem⟩ := List.mem_flatMap.mp hmem
    by_cases hv : ps.Version = engineVersion
    · rw [if_pos hv] at hmem
      obtain ⟨v, hvm, hmem⟩ := List.mem_flatMap.mp hmem
      obtain ⟨detail, hdm, hmem⟩ := List.mem_flatMap.mp hmem
      refine ⟨ps, hps, hv, v, hvm, detail, hdm, ?_⟩
      by_cases hn : v.Name = "single"
      · rw [if_pos hn] at hmem
        left
        rw [List.mem_singleton] at hmem
        rw [hmem] at hid
        exact ⟨hn, hid⟩
      · rw [if_neg hn] at hmem
        exact Or.inr ⟨hn, product, hmem, hid⟩
    · rw [if_neg hv] at hmem
      cases hmem
  · rintro ⟨ps, hps, hv, v, hvm, detail, hdm, h⟩
    rcases h with ⟨hn, hid⟩ | ⟨hn, product, hpm, hid⟩
    · refine ⟨detailProduct detail, ?_, hid⟩
      unfold listedProducts
      refine List.mem_flatMap.mpr ⟨ps, hps, ?_⟩
      rw [if_pos hv]
      refine List.mem_flatMap.mpr ⟨v, hvm, List.mem_flatMap.mpr ⟨detail, hdm, ?_⟩⟩
      rw [if_pos hn]
      exact List.mem_singleton.mpr rfl
    · refine ⟨product, ?_, hid⟩
      unfold listedProducts
      refine List.mem_flatMap.mpr ⟨ps, hps, ?_⟩
      rw [if_pos hv]
      refine List.mem_flatMap.mpr ⟨v, hvm, List.mem_flatMap.mpr ⟨detail, hdm, ?_⟩⟩
      rw [if_neg hn]
      exact hpm

/-- C13: for every product listing, `getRabbitMQProductDetail` succeeds exactly
when an hourly entry of the engine version holds a matching product (a detail
with the requested ID under a value named "single", or a `ProductInfos` element
with that ID under another value); the product it returns has the requested ID
and is the first such product in listing order; otherwise it returns an error
that names the requested ID. -/
theorem getRabbitMQProductDetail_spec (productRsp : GetResponse)
    (productID engineVersion : String) :
    ((∃ product, getRabbitMQProductDetail (.ok productRsp) productID engineVersion =
        .ok product) ↔
      ∃ ps ∈ productRsp.Hourly, ps.Version = engineVersion ∧
        ∃ v ∈ ps.Values, ∃ detail ∈ v.Details,
          (v.Name = "single" ∧ detail.ProductID = productID) ∨
          (v.Name ≠ "single" ∧ ∃ product ∈ detail.ProductInfos,
            product.ProductID = productID)) ∧
    (∀ product, getRabbitMQProductDetail (.ok productRsp) productID engineVersion =
        .ok product →
      product.ProductID = productID ∧
      ∃ earlier later, listedProducts productRsp engineVersion = earlier ++ product :: later ∧
        ∀ other ∈ earlier, other.ProductID ≠ productID) ∧
    ((¬ ∃ product, getRabbitMQProductDetail (.ok productRsp) productID engineVersion =
        .ok product) →
      getRabbitMQProductDetail (.ok productRsp) productID engineVersion =
        .error (.other ("can not found product detail base on product_id: " ++ productID))) := by
  rw [← listedProducts_offers, getRabbitMQProductDetail_eq_find]
  cases hf : (listedProducts productRsp engineVersion).find?
      (fun product => decide (product.ProductID = productID)) with
  | none =>
    have hnone := List.find?_eq_none.mp hf
    refine ⟨?_, ?_, ?_⟩
    · constructor
      · rintro ⟨product, h⟩
        cases h
      · rintro ⟨product, hmem, hid⟩
        exact absurd (by simpa using hid) (hnone product hmem)
    · intro product h
      cases h
    · intro _
      rfl
  | some found =>
    obtain ⟨hp, earlier, later, hsplit, hbefore⟩ := List.find?_eq_some.mp hf
    have hid : found.ProductID = productID := by simpa using hp
    refine ⟨?_, ?_, ?_⟩
    · constructor
      · intro _
        exact ⟨found, List.mem_of_find?_eq_some hf, hid⟩
      · intro _
        exact ⟨found, rfl⟩
    · intro product h
      cases h
      refine ⟨hid, earlier, later, hsplit, ?_⟩
      intro other hother
      have := hbefore other hother
      simpa using this
    · intro h
      exact absurd ⟨found, rfl⟩ h

/-- C13 on the sample listing: the cluster product `p-old` is found among the
`ProductInfos`, the single-node product `p-single` in the detail itself, and an
unknown ID or another engine version gives the error. -/
theorem getRabbitMQProductDetail_sample :
    getRabbitMQProductDetail (.ok sampleProducts) "p-old" "3.7.17" =
      .ok ⟨"200", "p-old", "c3.2u4g.cluster", ["high"], ["az-id-1"], []⟩ ∧
    getRabbitMQProductDetail (.ok sampleProducts) "p-single" "3.7.17" =
      .ok ⟨"100", "p-single", "c3.2u4g.single", ["high"], ["az-id-1"], []⟩ ∧
    getRabbitMQProductDetail (.ok sampleProducts) "p-none" "3.7.17" =
      .error (.other "can not found product detail base on product_id: p-none") ∧
    getRabbitMQProductDetail (.ok sampleProducts) "p-old" "3.8.35" =
      .error (.other "can not found product detail base on product_id: p-old") :=
  ⟨rfl, rfl,
    (getRabbitMQProductDetail_spec sampleProducts "p-none" "3.7.17").2.2 (by
      rintro ⟨product, h⟩
      exact absurd h (by simp [getRabbitMQProductDetail, sampleProducts, matchDetail])),
    rfl⟩


/-! ## Create: the storage space of the request -/

/-- The effects of Read after `Get` answered are attribute writes and the tag
fetch. -/
theorem readInstance_trace_kinds (env : Env) (d : ResourceData) (v : Instance) :
    ∀ e ∈ (readInstance env d v).trace, (∃ key, e = .Set key) ∨ (∃ id, e = .ApiTagsGet id) := by
  intro e he
  have htags : ∀ x m, ∀ e ∈ (readTags env x m).2.2,
      (∃ key, e = Effect.Set key) ∨ (∃ id, e = Effect.ApiTagsGet id) := by
    intro x m e he
    unfold readTags at he
    cases hg : env.TagsGet env.engineRabbitMQ x.Id with
    | error err =>
      simp [hg] at he
      simp [he]
    | ok ts =>
      cases hs : env.setError "tags" <;> simp [hg, hs, ResourceData.Set] at he <;>
        rcases he with h | h <;> simp [h]
  unfold readInstance at he
  simp only [] at he
  rw [setAttributes_trace] at he
  have hmem : e ∈ (readAttributes (env.GetRegion d) v
        (getAvailableZoneCodeByID env.availableZones v.AvailableZones).1).map
        (fun s => Effect.Set s.1) ∨
      e ∈ (readTags env (setAttributes env.setError (d.SetId v.InstanceID)
        (readAttributes (env.GetRegion d) v
          (getAvailableZoneCodeByID env.availableZones v.AvailableZones).1)).1
        (multierrorAppend (multierrorAppend []
          [(getAvailableZoneCodeByID env.availableZones v.AvailableZones).2])
          (setAttributes env.setError (d.SetId v.InstanceID)
            (readAttributes (env.GetRegion d) v
              (getAvailableZoneCodeByID env.availableZones v.AvailableZones).1)).2.1)).2.2 := by
    split at he <;> exact List.mem_append.mp he
  rcases hmem with h | h
  · obtain ⟨s, _, hs⟩ := List.mem_map.mp h
    exact Or.inl ⟨s.1, hs.symm⟩
  · exact htags _ _ e h

/-- Read sends no create request. -/
theorem resourceDmsRabbitmqInstanceRead_no_create (env : Env) (d : ResourceData)
    (opts : CreateOps) : Effect.ApiCreate opts ∉ (resourceDmsRabbitmqInstanceRead env d).trace := by
  intro hmem
  unfold resourceDmsRabbitmqInstanceRead at hmem
  split at hmem
  · cases hmem
  · split at hmem
    · simp [CheckDeletedDiag] at hmem
    · rename_i v _
      rcases List.mem_cons.mp hmem with h | h
      · cases h
      · rcases readInstance_trace_kinds env d v _ h with ⟨key, hk⟩ | ⟨id, hk⟩ <;> cases hk

/-- The storage space of the create options is the one they were built with. -/
theorem buildCreateOpts_StorageSpace (env : Env) (d : ResourceData) (availableZones : List String)
    (storageSpace : Int) :
    (buildCreateOpts env d availableZones storageSpace).StorageSpace = storageSpace := by
  unfold buildCreateOpts
  by_cases hp : d.public_ip_id = "" <;> by_cases ht : d.tags.length > 0 <;> simp [hp, ht]

/-- A create request in the effects of Create was built from the storage space
that `createStorageSpace` answered, and carries the configured password. -/
theorem resourceDmsRabbitmqInstanceCreate_request (env : Env) (d : ResourceData)
    (opts : CreateOps)
    (hmem : Effect.ApiCreate opts ∈ (resourceDmsRabbitmqInstanceCreate env d).trace) :
    ∃ availableZones storageSpace, createStorageSpace env d = .ok storageSpace ∧
      opts = { buildCreateOpts env d availableZones storageSpace with Password := d.password } := by
  unfold resourceDmsRabbitmqInstanceCreate at hmem
  cases hc : env.DmsV2Client with
  | some err => simp [hc] at hmem
  | none =>
    simp only [hc] at hmem
    split at hmem
    · cases hmem
    · rename_i availableZones _
      split at hmem
      · cases hmem
      · rename_i storageSpace hs
        have hsent : ∀ l : List Effect, (∀ o, Effect.ApiCreate o ∉ l) →
            Effect.ApiCreate opts ∈
              [Effect.LogCreateOpts (buildCreateOpts env d availableZones storageSpace),
                Effect.ApiCreate { buildCreateOpts env d availableZones storageSpace with
                  Password := d.password }] ++ l →
            opts = { buildCreateOpts env d availableZones storageSpace with
              Password := d.password } := by
          intro l hl h
          rcases List.mem_append.mp h with h | h
          · simpa using h
          · exact absurd h (hl opts)
        refine ⟨availableZones, storageSpace, hs, ?_⟩
        split at hmem
        · exact hsent [] (fun o h => by cases h) (by simpa using hmem)
        · rename_i instanceID _
          split at hmem
          · refine hsent [Effect.WaitForState instanceID ["RUNNING"]] ?_ hmem
            intro o h
            simp at h
          · refine hsent ([Effect.WaitForState instanceID ["RUNNING"]] ++
              (resourceDmsRabbitmqInstanceRead env (d.SetId instanceID)).trace) ?_
              (by simpa [List.append_assoc] using hmem)
            intro o h
            rcases List.mem_append.mp h with h | h
            · simp at h
            · exact resourceDmsRabbitmqInstanceRead_no_create env _ o h


/-- A value `ParseInt` answers fits in `bitSize` bits. -/
theorem ParseInt_range (s : String) (bitSize : Nat) (n : Int)
    (h : ParseInt s bitSize = .ok n) :
    -(2 ^ (bitSize - 1) : Int) ≤ n ∧ n < 2 ^ (bitSize - 1) := by
  have key : ∀ (neg : Bool) (ds : List Char),
      (if ds = [] then (Except.error (.other "strconv.ParseInt: invalid syntax") : Except GoError Int)
        else
          match parseDigits 0 ds with
          | none => .error (.other "strconv.ParseInt: invalid syntax")
          | some un =>
            if !neg ∧ un ≥ 2 ^ (bitSize - 1) then
              .error (.other "strconv.ParseInt: value out of range")
            else if neg ∧ un > 2 ^ (bitSize - 1) then
              .error (.other "strconv.ParseInt: value out of range")
            else .ok (if neg then -(un : Int) else (un : Int))) = .ok n →
      -(2 ^ (bitSize - 1) : Int) ≤ n ∧ n < 2 ^ (bitSize - 1) := by
    intro neg ds hk
    have hpow : ((2 ^ (bitSize - 1) : Nat) : Int) = 2 ^ (bitSize - 1) := by push_cast; rfl
    have hpos : (0 : Int) < 2 ^ (bitSize - 1) := by positivity
    by_cases hempty : ds = []
    · simp [hempty] at hk
    · rw [if_neg hempty] at hk
      cases hd : parseDigits 0 ds with
      | none => simp [hd] at hk
      | some un =>
        simp only [hd] at hk
        have hun : (0 : Int) ≤ (un : Int) := Int.ofNat_nonneg un
        cases neg
        · simp only [Bool.not_false, true_and, Bool.false_eq_true, false_and, if_false] at hk
          by_cases h1 : un ≥ 2 ^ (bitSize - 1)
          · simp [h1] at hk
          · rw [if_neg h1] at hk
            cases hk
            have : (un : Int) < ((2 ^ (bitSize - 1) : Nat) : Int) := by
              exact_mod_cast not_le.mp h1
            rw [hpow] at this
            omega
        · simp only [Bool.not_true, Bool.false_eq_true, false_and, if_false, true_and,
            if_true] at hk
          by_cases h2 : un > 2 ^ (bitSize - 1)
          · simp [h2] at hk
          · rw [if_neg h2] at hk
            cases hk
            have : (un : Int) ≤ ((2 ^ (bitSize - 1) : Nat) : Int) := by
              exact_mod_cast not_lt.mp h2
            rw [hpow] at this
            omega
  exact key _ _ h

/-- C14: a create request that Create sends carries the configured
`storage_space` when that is not 0; when it is 0, it carries the `Storage` of
the selected product parsed as a decimal integer of 32 bits; and when the
product lookup or the parse fails for a `storage_space` of 0, Create returns an
error diagnostic and sends no create request. -/
theorem resourceDmsRabbitmqInstanceCreate_storage_space (env : Env) (d : ResourceData) :
    (∀ opts, Effect.ApiCreate opts ∈ (resourceDmsRabbitmqInstanceCreate env d).trace →
      (d.storage_space ≠ 0 → opts.StorageSpace = d.storage_space) ∧
      (d.storage_space = 0 → ∃ product,
        getRabbitMQProductDetail env.getProducts d.product_id d.engine_version = .ok product ∧
        ParseInt product.Storage 32 = .ok opts.StorageSpace ∧
        -(2 ^ 31 : Int) ≤ opts.StorageSpace ∧ opts.StorageSpace < 2 ^ 31)) ∧
    (d.storage_space = 0 →
      ((∀ product, getRabbitMQProductDetail env.getProducts d.product_id d.engine_version ≠
          .ok product) ∨
        (∃ product, getRabbitMQProductDetail env.getProducts d.product_id d.engine_version =
          .ok product ∧ ∀ n, ParseInt product.Storage 32 ≠ .ok n)) →
      (resourceDmsRabbitmqInstanceCreate env d).diags.HasError = true ∧
      ∀ opts, Effect.ApiCreate opts ∉ (resourceDmsRabbitmqInstanceCreate env d).trace) := by
  constructor
  · intro opts hmem
    obtain ⟨availableZones, storageSpace, hs, hopts⟩ :=
      resourceDmsRabbitmqInstanceCreate_request env d opts hmem
    have hsp : opts.StorageSpace = storageSpace := by
      rw [hopts]
      exact buildCreateOpts_StorageSpace env d availableZones storageSpace
    obtain ⟨hne, hzero⟩ := createStorageSpace_ok env d storageSpace hs
    rw [hsp]
    refine ⟨hne, fun h0 => ?_⟩
    obtain ⟨product, hp, hparse⟩ := hzero h0
    exact ⟨product, hp, hparse, ParseInt_range product.Storage 32 storageSpace hparse⟩
  · intro h0 hfail
    have hnone : ∀ storageSpace, createStorageSpace env d ≠ .ok storageSpace := by
      intro storageSpace hs
      obtain ⟨product, hp, hparse⟩ := (createStorageSpace_ok env d storageSpace hs).2 h0
      rcases hfail with hl | ⟨product2, hp2, hn⟩
      · exact hl product hp
      · rw [hp] at hp2
        cases hp2
        exact hn storageSpace hparse
    constructor
    · by_contra hok
      obtain ⟨_, storageSpace, _, hs, _⟩ :=
        resourceDmsRabbitmqInstanceCreate_ok env d (by simpa using hok)
      exact hnone storageSpace hs
    · intro opts hmem
      obtain ⟨_, storageSpace, hs, _⟩ := resourceDmsRabbitmqInstanceCreate_request env d opts hmem
      exact hnone storageSpace hs


/-- Witness of C14: with a `storage_space` of 0 the request carries the storage
"100" of the single-node product as 100; with a product that the listing does
not hold Create fails and sends nothing. -/
theorem resourceDmsRabbitmqInstanceCreate_storage_space_witness :
    (∀ opts, Effect.ApiCreate opts ∈
        (resourceDmsRabbitmqInstanceCreate (echoEnv unsetStorageInstance) unsetStorageData).trace →
      opts.StorageSpace = 100) ∧
    (∃ opts, Effect.ApiCreate opts ∈
        (resourceDmsRabbitmqInstanceCreate (echoEnv unsetStorageInstance)
          unsetStorageData).trace) ∧
    (resourceDmsRabbitmqInstanceCreate sampleEnv unknownProductData).diags.HasError = true ∧
    ∀ opts, Effect.ApiCreate opts ∉
      (resourceDmsRabbitmqInstanceCreate sampleEnv unknownProductData).trace := by
  refine ⟨?_, ?_, (resourceDmsRabbitmqInstanceCreate_storage_space sampleEnv
    unknownProductData).2 rfl (Or.inl ?_)⟩
  · intro opts hmem
    obtain ⟨product, hp, hparse, _⟩ :=
      ((resourceDmsRabbitmqInstanceCreate_storage_space (echoEnv unsetStorageInstance)
        unsetStorageData).1 opts hmem).2 rfl
    have hprod : getRabbitMQProductDetail (echoEnv unsetStorageInstance).getProducts
        unsetStorageData.product_id unsetStorageData.engine_version =
        .ok ⟨"100", "p-single", "c3.2u4g.single", ["high"], ["az-id-1"], []⟩ := rfl
    rw [hprod] at hp
    cases hp
    have h100 : ParseInt "100" 32 = .ok 100 := rfl
    rw [h100] at hparse
    injection hparse with h
    exact h.symm
  · exact ⟨_, by
      show Effect.ApiCreate
        { buildCreateOpts (echoEnv unsetStorageInstance) unsetStorageData ["az-id-1", "az-id-2"] 100
          with Password := "Secret_123" } ∈ _
      decide⟩
  · intro product h
    have herr : getRabbitMQProductDetail sampleEnv.getProducts unknownProductData.product_id
        unknownProductData.engine_version =
        .error (.other "can not found product detail base on product_id: p-none") := rfl
    rw [herr] at h
    cases h


/-! ## Create: the log entry and the password -/

/-- Read writes no create options to the log. -/
theorem resourceDmsRabbitmqInstanceRead_logged (env : Env) (d : ResourceData) :
    loggedCreateOpts (resourceDmsRabbitmqInstanceRead env d).trace = [] := by
  unfold loggedCreateOpts
  rw [List.filterMap_eq_nil_iff]
  intro e hmem
  unfold resourceDmsRabbitmqInstanceRead at hmem
  split at hmem
  · cases hmem
  · split at hmem
    · simp [CheckDeletedDiag] at hmem
      rw [hmem]
    · rename_i v _
      rcases List.mem_cons.mp hmem with h | h
      · rw [h]
      · rcases readInstance_trace_kinds env d v _ h with ⟨key, hk⟩ | ⟨id, hk⟩ <;> rw [hk]

/-- The create options Create logs: one entry, built without the password, once
the client, the zones and the storage space are there; none before. -/
theorem resourceDmsRabbitmqInstanceCreate_logged (env : Env) (d : ResourceData) :
    loggedCreateOpts (resourceDmsRabbitmqInstanceCreate env d).trace =
      match env.DmsV2Client with
      | some _ => []
      | none =>
        match (if d.available_zones ≠ [] then .ok (env.ExpandToStringList d.available_zones)
          else env.getAvailableZoneIDByCode d.availability_zones :
            Except GoError (List String)) with
        | .error _ => []
        | .ok availableZones =>
          match createStorageSpace env d with
          | .error _ => []
          | .ok storageSpace => [buildCreateOpts env d availableZones storageSpace] := by
  unfold resourceDmsRabbitmqInstanceCreate
  cases hc : env.DmsV2Client with
  | some err => rfl
  | none =>
    simp only []
    cases hz : (if d.available_zones ≠ [] then .ok (env.ExpandToStringList d.available_zones)
        else env.getAvailableZoneIDByCode d.availability_zones :
          Except GoError (List String)) with
    | error err => rfl
    | ok availableZones =>
      simp only []
      cases hs : createStorageSpace env d with
      | error diags => rfl
      | ok storageSpace =>
        simp only []
        cases hcreate : env.Create { buildCreateOpts env d availableZones storageSpace with
            Password := d.password } with
        | error err => rfl
        | ok instanceID =>
          simp only []
          cases hw : env.WaitForStateContext
              (createStateConf env.Get instanceID d.timeoutCreate) with
          | some err => rfl
          | none =>
            simp only []
            have hread := resourceDmsRabbitmqInstanceRead_logged env (d.SetId instanceID)
            unfold loggedCreateOpts at hread ⊢
            simp only [List.filterMap_append, hread, List.filterMap_cons, List.filterMap_nil,
              List.append_nil, List.singleton_append, List.nil_append]

/-- The create options are built with an empty password. -/
theorem buildCreateOpts_Password (env : Env) (d : ResourceData) (availableZones : List String)
    (storageSpace : Int) :
    (buildCreateOpts env d availableZones storageSpace).Password = "" := by
  unfold buildCreateOpts
  by_cases hp : d.public_ip_id = "" <;> by_cases ht : d.tags.length > 0 <;> simp [hp, ht]

/-- C12: for two configurations that differ only in the password (and for which
`common.GetEnterpriseProjectID` answers the same), Create writes the same
create options to the log; the `Password` of every logged value is empty; and
every create request Create sends carries the configured password. -/
theorem resourceDmsRabbitmqInstanceCreate_log_hides_password (env : Env) (d : ResourceData)
    (password : String)
    (hhelper : env.GetEnterpriseProjectID { d with password := password } =
      env.GetEnterpriseProjectID d) :
    loggedCreateOpts (resourceDmsRabbitmqInstanceCreate env { d with password := password }).trace =
      loggedCreateOpts (resourceDmsRabbitmqInstanceCreate env d).trace ∧
    (∀ opts ∈ loggedCreateOpts (resourceDmsRabbitmqInstanceCreate env d).trace,
      opts.Password = "") ∧
    (∀ opts, Effect.ApiCreate opts ∈ (resourceDmsRabbitmqInstanceCreate env d).trace →
      opts.Password = d.password) := by
  refine ⟨?_, ?_, ?_⟩
  · rw [resourceDmsRabbitmqInstanceCreate_logged, resourceDmsRabbitmqInstanceCreate_logged]
    have hs : createStorageSpace env { d with password := password } =
        createStorageSpace env d := rfl
    have hb : ∀ availableZones storageSpace,
        buildCreateOpts env { d with password := password } availableZones storageSpace =
          buildCreateOpts env d availableZones storageSpace := by
      intro availableZones storageSpace
      unfold buildCreateOpts
      simp only [hhelper]
    simp only [hs, hb]
  · intro opts hmem
    rw [resourceDmsRabbitmqInstanceCreate_logged] at hmem
    split at hmem
    · cases hmem
    · split at hmem
      · cases hmem
      · split at hmem
        · cases hmem
        · rw [List.mem_singleton] at hmem
          rw [hmem]
          exact buildCreateOpts_Password env d _ _
  · intro opts hmem
    obtain ⟨availableZones, storageSpace, _, hopts⟩ :=
      resourceDmsRabbitmqInstanceCreate_request env d opts hmem
    rw [hopts]

/-- Witness of C12: the sample configuration and the same with another
password log the same single entry, which has no password, while the request
carries the password. -/
theorem resourceDmsRabbitmqInstanceCreate_log_hides_password_witness :
    loggedCreateOpts (resourceDmsRabbitmqInstanceCreate sampleEnv
        { sampleData with password := "Other_456" }).trace =
      loggedCreateOpts (resourceDmsRabbitmqInstanceCreate sampleEnv sampleData).trace ∧
    (loggedCreateOpts (resourceDmsRabbitmqInstanceCreate sampleEnv sampleData).trace).length = 1 ∧
    (∀ opts ∈ loggedCreateOpts (resourceDmsRabbitmqInstanceCreate sampleEnv sampleData).trace,
      opts.Password = "") ∧
    (∀ opts, Effect.ApiCreate opts ∈ (resourceDmsRabbitmqInstanceCreate sampleEnv sampleData).trace →
      opts.Password = "Secret_123") :=
  have h := resourceDmsRabbitmqInstanceCreate_log_hides_password sampleEnv sampleData
    "Other_456" rfl
  ⟨h.1, by decide, h.2.1, h.2.2⟩


/-! ## Update -/

/-- The effects of a resize are the resize call and the wait. -/
theorem resizeRabbitMQInstance_effects (env : Env) (d : ResourceData) :
    ∀ e ∈ (resizeRabbitMQInstance env d).2,
      (∃ id opts, e = .ApiResize id opts) ∨ (∃ id target, e = .WaitForState id target) := by
  intro e he
  unfold resizeRabbitMQInstance at he
  split at he
  · cases he
  · split at he
    · cases he
    · split at he
      · cases he
      · simp only [] at he
        split at he
        · simp at he
          simp [he]
        · split at he <;> simp at he <;> rcases he with h | h <;> simp [h]

/-- The steps of Update do not read the instance. -/
theorem updateStepEffects_no_get (env : Env) (d : ResourceData) (id : String) :
    Effect.ApiGet id ∉ updateStepEffects env d := by
  intro hmem
  unfold updateStepEffects at hmem
  rcases List.mem_append.mp hmem with h | h
  · rcases List.mem_append.mp h with h | h
    · split_ifs at h <;> simp at h
    · split_ifs at h <;> simp at h
  · split_ifs at h
    · rcases resizeRabbitMQInstance_effects env d _ h with ⟨_, _, hk⟩ | ⟨_, _, hk⟩ <;> cases hk
    · cases h

/-- Update, once the client is there: the applicable steps are all taken; with a
failed step the result is one error diagnostic with the errors of the steps
and the resource data as it was; with none the result is that of the Read that
follows the steps. -/
theorem resourceDmsRabbitmqInstanceUpdate_eq (env : Env) (d : ResourceData)
    (hclient : env.DmsV2Client = none) :
    resourceDmsRabbitmqInstanceUpdate env d =
      if updateStepErrors env d ≠ [] then
        ⟨d, [⟨.Error, "error while updating DMS RabbitMQ instances", updateStepErrors env d⟩],
          updateStepEffects env d⟩
      else
        ⟨(resourceDmsRabbitmqInstanceRead env d).d, (resourceDmsRabbitmqInstanceRead env d).diags,
          updateStepEffects env d ++ (resourceDmsRabbitmqInstanceRead env d).trace⟩ := by
  unfold resourceDmsRabbitmqInstanceUpdate updateStepErrors updateStepEffects
  simp only [hclient]
  cases hb : HasChanges env d basicKeys <;> cases ht : env.HasChange d "tags" <;>
    cases hp : env.HasChange d "product_id" <;>
    cases hu : env.Update d.Id (buildUpdateOpts env d) <;>
    cases htg : env.UpdateResourceTags d env.engineRabbitMQ d.Id <;>
    cases hr : (resizeRabbitMQInstance env d).1 <;>
    simp [multierrorAppend, diagErrorf]


/-- C15, refuted as stated: the name changed, the only applicable step, the
update call, is taken and succeeds, so no step failed; yet Update returns an
error diagnostic, that of the Read it ends with. And without a client Update
returns an error diagnostic before it takes any step. -/
theorem resourceDmsRabbitmqInstanceUpdate_counterexample :
    renameEnv.DmsV2Client = none ∧
    updateStepEffects renameEnv (sampleData.SetId "i-1") =
      [.ApiUpdate "i-1" (buildUpdateOpts renameEnv (sampleData.SetId "i-1"))] ∧
    renameEnv.Update "i-1" (buildUpdateOpts renameEnv (sampleData.SetId "i-1")) = none ∧
    updateStepErrors renameEnv (sampleData.SetId "i-1") = [] ∧
    Effect.ApiGet "i-1" ∈
      (resourceDmsRabbitmqInstanceUpdate renameEnv (sampleData.SetId "i-1")).trace ∧
    (resourceDmsRabbitmqInstanceUpdate renameEnv (sampleData.SetId "i-1")).diags.HasError =
      true ∧
    (resourceDmsRabbitmqInstanceUpdate noClientEnv (sampleData.SetId "i-1")).trace = [] ∧
    (resourceDmsRabbitmqInstanceUpdate noClientEnv (sampleData.SetId "i-1")).diags.HasError =
      true := by
  decide

/-- C15, amended: once the client is there, Update takes every applicable step
(the basic update when a basic attribute changed, the tag update when the tags
changed, the resize when the product changed) whatever the earlier steps
answered; when at least one step failed it returns one error diagnostic that
holds the errors of all failed steps, leaves the resource data as it was and
reads nothing; when none failed it performs the final Read and returns what the
Read returns; so it returns an error diagnostic exactly when a step failed or
the final Read returned one. -/
theorem resourceDmsRabbitmqInstanceUpdate_steps (env : Env) (d : ResourceData)
    (hclient : env.DmsV2Client = none) :
    (∃ rest, (resourceDmsRabbitmqInstanceUpdate env d).trace = updateStepEffects env d ++ rest) ∧
    (HasChanges env d basicKeys = true →
      Effect.ApiUpdate d.Id (buildUpdateOpts env d) ∈
        (resourceDmsRabbitmqInstanceUpdate env d).trace) ∧
    (env.HasChange d "tags" = true →
      Effect.UpdateResourceTags d.Id ∈ (resourceDmsRabbitmqInstanceUpdate env d).trace) ∧
    (env.HasChange d "product_id" = true →
      ∀ e ∈ (resizeRabbitMQInstance env d).2,
        e ∈ (resourceDmsRabbitmqInstanceUpdate env d).trace) ∧
    (updateStepErrors env d ≠ [] →
      (resourceDmsRabbitmqInstanceUpdate env d).diags =
        [⟨.Error, "error while updating DMS RabbitMQ instances", updateStepErrors env d⟩] ∧
      (resourceDmsRabbitmqInstanceUpdate env d).d = d ∧
      ∀ id, Effect.ApiGet id ∉ (resourceDmsRabbitmqInstanceUpdate env d).trace) ∧
    (updateStepErrors env d = [] →
      (resourceDmsRabbitmqInstanceUpdate env d).diags =
        (resourceDmsRabbitmqInstanceRead env d).diags ∧
      (resourceDmsRabbitmqInstanceUpdate env d).d = (resourceDmsRabbitmqInstanceRead env d).d ∧
      (resourceDmsRabbitmqInstanceUpdate env d).trace =
        updateStepEffects env d ++ (resourceDmsRabbitmqInstanceRead env d).trace) ∧
    ((resourceDmsRabbitmqInstanceUpdate env d).diags.HasError = true ↔
      updateStepErrors env d ≠ [] ∨
        (resourceDmsRabbitmqInstanceRead env d).diags.HasError = true) := by
  have heq := resourceDmsRabbitmqInstanceUpdate_eq env d hclient
  have htrace : ∃ rest,
      (resourceDmsRabbitmqInstanceUpdate env d).trace = updateStepEffects env d ++ rest := by
    rw [heq]
    split_ifs
    · exact ⟨[], (List.append_nil _).symm⟩
    · exact ⟨_, rfl⟩
  obtain ⟨rest, hrest⟩ := htrace
  refine ⟨⟨rest, hrest⟩, ?_, ?_, ?_, ?_, ?_, ?_⟩
  · intro hb
    rw [hrest]
    apply List.mem_append_left
    unfold updateStepEffects
    simp [hb]
  · intro ht
    rw [hrest]
    apply List.mem_append_left
    unfold updateStepEffects
    simp [ht]
  · intro hp e he
    rw [hrest]
    apply List.mem_append_left
    unfold updateStepEffects
    simp [hp, he]
  · intro hne
    rw [heq, if_pos hne]
    exact ⟨rfl, rfl, fun id => updateStepEffects_no_get env d id⟩
  · intro hnil
    rw [heq, if_neg (not_not.mpr hnil)]
    exact ⟨rfl, rfl, rfl⟩
  · rw [heq]
    split_ifs with h
    · simp [Diagnostics.HasError, h]
    · simp [h]

/-- Witness of the amended C15: everything changed and the update call is
rejected; the tag update and the resize are still taken, the diagnostic holds
the error of the update call, and nothing is read. -/
theorem resourceDmsRabbitmqInstanceUpdate_steps_witness :
    (resourceDmsRabbitmqInstanceUpdate rejectEnv (sampleData.SetId "i-1")).diags =
      [⟨.Error, "error while updating DMS RabbitMQ instances",
        [.other "error updating DMS RabbitMQ Instance: Bad Request"]⟩] ∧
    Effect.UpdateResourceTags "i-1" ∈
      (resourceDmsRabbitmqInstanceUpdate rejectEnv (sampleData.SetId "i-1")).trace ∧
    Effect.ApiResize "i-1" ⟨"c3.2u4g.cluster", 200⟩ ∈
      (resourceDmsRabbitmqInstanceUpdate rejectEnv (sampleData.SetId "i-1")).trace ∧
    Effect.ApiGet "i-1" ∉
      (resourceDmsRabbitmqInstanceUpdate rejectEnv (sampleData.SetId "i-1")).trace :=
  have h := resourceDmsRabbitmqInstanceUpdate_steps rejectEnv (sampleData.SetId "i-1") rfl
  ⟨(h.2.2.2.2.1 (by decide)).1, h.2.2.1 rfl, h.2.2.2.1 rfl _ (by decide),
    (h.2.2.2.2.1 (by decide)).2.2 "i-1"⟩

end Dms
